import Mathlib

/-!
Verification of the WealthLens multi-provider AI analysis orchestration layer
(src/services/gemini.ts, final revision) against its natural-language
specification.

Modelling conventions (shallow embedding):
* JavaScript strings are modelled as `List Char` (named `Str`).  The
  JavaScript whitespace class is modelled by its ASCII subset
  (space, tab, newline, carriage return), which covers every string the
  program manipulates.
* JavaScript `undefined`-able strings are `Option Str`; JS truthiness of a
  string (`!s` is true for `undefined` and `""`) is `jsTruthy`.
* `JSON.parse` / `JSON.stringify` are modelled by an executable JSON
  value type `Json` with a serializer and a fuel-indexed recursive-descent
  parser covering the JSON subset the program exchanges (objects, arrays,
  strings with simple escapes, integer numerals).  Numeric literals are
  modelled as integers.
* Network I/O (`fetch` inside `openAIFetch`, and the Gemini SDK call) is
  modelled by oracle functions supplied as parameters; every issued request
  is recorded in a trace list so that call-count claims are statable.
* Thrown `Error` values are modelled by their message string; `e.toString()`
  is modelled as `"Error: " ++ message`.
-/

/-- Character-list model of JavaScript strings. -/
abbrev Str := List Char

/-- ASCII subset of the JavaScript whitespace class. -/
def isWS (c : Char) : Bool :=
  c = ' ' || c = '\n' || c = '\t' || c = '\r'

/-- Drop leading whitespace (models a leading regex whitespace match). -/
def skipWS (s : Str) : Str := s.dropWhile isWS

/-- Drop trailing whitespace. -/
def dropRightWS (s : Str) : Str := (s.reverse.dropWhile isWS).reverse

/-- Model of JavaScript String.prototype.trim. -/
def trimChars (s : Str) : Str := dropRightWS (s.dropWhile isWS)

/-- Boolean test that the second list begins with the first. -/
def startsWithL : Str → Str → Bool
  | [], _ => true
  | _ :: _, [] => false
  | a :: p, b :: s => a = b && startsWithL p s

/-- Boolean test that the second list ends with the first. -/
def endsWithL (p s : Str) : Bool := startsWithL p.reverse s.reverse

/-- Boolean substring containment, models JavaScript String.prototype.includes. -/
def hasSub (p : Str) : Str → Bool
  | [] => startsWithL p []
  | c :: s => startsWithL p (c :: s) || hasSub p s

/-- Index of the first occurrence of a character, models String.prototype.indexOf. -/
def idxOfChar (c : Char) : Str → Option Nat
  | [] => none
  | a :: t => if a = c then some 0 else (idxOfChar c t).map (· + 1)

/-- Index of the last occurrence of a character, models String.prototype.lastIndexOf. -/
def lastIdxOfChar (c : Char) (s : Str) : Option Nat :=
  (idxOfChar c s.reverse).map (fun k => s.length - 1 - k)

/-- Model of JavaScript String.prototype.substring: swaps its arguments when
given in descending order, then slices. -/
def jsSubstring (s : Str) (a b : Nat) : Str :=
  (s.drop (min a b)).take (max a b - min a b)

/-- JS truthiness of a possibly-undefined string: both `undefined` and the
empty string are falsy. -/
def jsTruthy : Option Str → Bool
  | none => false
  | some s => s ≠ []

/-- Value of a possibly-undefined string once known truthy. -/
def optVal (s : Option Str) : Str := s.getD []

/-- Model of the JS expression `a || b` on two possibly-undefined strings. -/
def jsOrOpt (a b : Option Str) : Option Str := if jsTruthy a then a else b

/-- Model of the JS expression `a || b` where the fallback is a present string. -/
def jsOrStr (a : Option Str) (b : Str) : Str := if jsTruthy a then optVal a else b

/-- Model of JS template interpolation of a possibly-undefined string:
`undefined` prints as the literal text undefined. -/
def jsToString : Option Str → Str
  | none => "undefined".toList
  | some s => s

/-- Endpoint normalization performed by `openAIFetch`
(src/services/gemini.ts lines 361-366): strip one trailing slash
(regex replace of a single slash at the end), then append
"/chat/completions" unless the URL already ends with
"/v1/chat/completions" or "/chat/completions". -/
def cleanEndpoint (endpoint : Str) : Str :=
  let c := if endsWithL ['/'] endpoint then endpoint.dropLast else endpoint
  if !endsWithL ("/v1/chat/completions".toList) c
      && !endsWithL ("/chat/completions".toList) c then
    c ++ "/chat/completions".toList
  else c

example :
    cleanEndpoint "https://api.example.com/".toList
      = "https://api.example.com/chat/completions".toList := by decide

example :
    cleanEndpoint "https://api.example.com/v1/chat/completions".toList
      = "https://api.example.com/v1/chat/completions".toList := by decide

example : cleanEndpoint "https://api.example.com/v1".toList
      = "https://api.example.com/v1/chat/completions".toList := by decide

/-! ## JSON value model

Executable model of the JSON texts the program exchanges: objects, arrays,
strings (with the simple escape sequences), and integer numerals.  This is
the subset produced by `JSON.stringify` on the result values the claims
quantify over; numeric literals are modelled as integers. -/

/-- JSON values (numbers modelled as integers; field order preserved). -/
inductive Json where
  | jnum (n : Int)
  | jstr (s : Str)
  | jarr (xs : List Json)
  | jobj (fs : List (Str × Json))

/-- Decimal digit characters. -/
def decDigits : List Char := ['0', '1', '2', '3', '4', '5', '6', '7', '8', '9']

/-- Character for a decimal digit value. -/
def digitChar (d : Nat) : Char := decDigits.getD d '0'

/-- Numeric value of a decimal digit character. -/
def digitVal (c : Char) : Nat := c.toNat - 48

/-- Test for a decimal digit character. -/
def isDigitChar (c : Char) : Bool := '0' ≤ c && c ≤ '9'

/-- Little-endian decimal digits, fuel-indexed so that the kernel can
evaluate it. -/
def natDigitsAux : Nat → Nat → List Nat
  | 0, _ => []
  | fuel + 1, n => if n = 0 then [] else n % 10 :: natDigitsAux fuel (n / 10)

/-- Little-endian decimal digits of a natural number. -/
def natDigitsLE (n : Nat) : List Nat := natDigitsAux n n

/-- Decimal digit string of a natural number (most significant first). -/
def natChars (n : Nat) : Str :=
  if n = 0 then ['0'] else (natDigitsLE n).reverse.map digitChar

/-- Decimal digit string of an integer. -/
def intChars : Int → Str
  | Int.ofNat n => natChars n
  | Int.negSucc m => '-' :: natChars (m + 1)

/-- Escape a string body the way `JSON.stringify` does for the characters
the model covers (quote, backslash, newline, tab, carriage return). -/
def escapeChars : Str → Str
  | [] => []
  | c :: t =>
    if c = '"' then '\\' :: '"' :: escapeChars t
    else if c = '\\' then '\\' :: '\\' :: escapeChars t
    else if c = '\n' then '\\' :: 'n' :: escapeChars t
    else if c = '\t' then '\\' :: 't' :: escapeChars t
    else if c = '\r' then '\\' :: 'r' :: escapeChars t
    else c :: escapeChars t

/-- Serialize a JSON string literal. -/
def serStr (s : Str) : Str := '"' :: escapeChars s ++ ['"']

mutual

/-- Compact JSON serialization, models `JSON.stringify`. -/
def serJson : Json → Str
  | .jnum i => intChars i
  | .jstr s => serStr s
  | .jarr xs => '[' :: serArr xs ++ [']']
  | .jobj fs => '{' :: serObj fs ++ ['}']

/-- Serialize array elements, comma separated. -/
def serArr : List Json → Str
  | [] => []
  | [x] => serJson x
  | x :: y :: t => serJson x ++ ',' :: serArr (y :: t)

/-- Serialize object members, comma separated. -/
def serObj : List (Str × Json) → Str
  | [] => []
  | [(k, v)] => serStr k ++ ':' :: serJson v
  | (k, v) :: h :: t => serStr k ++ ':' :: serJson v ++ ',' :: serObj (h :: t)

end

/-- Resolve one escape character inside a JSON string literal. -/
def unescapeChar (c : Char) : Option Char :=
  if c = '"' then some '"'
  else if c = '\\' then some '\\'
  else if c = '/' then some '/'
  else if c = 'n' then some '\n'
  else if c = 't' then some '\t'
  else if c = 'r' then some '\r'
  else none

/-- Parse the body of a JSON string literal up to its closing quote; the
flag records that the previous character was an unconsumed backslash. -/
def parseStrBodyAux : Bool → Str → Option (Str × Str)
  | _, [] => none
  | true, c :: t =>
    match unescapeChar c with
    | some d => (parseStrBodyAux false t).map (fun p => (d :: p.1, p.2))
    | none => none
  | false, c :: t =>
    if c = '\\' then parseStrBodyAux true t
    else if c = '"' then some ([], t)
    else (parseStrBodyAux false t).map (fun p => (c :: p.1, p.2))

/-- Parse the body of a JSON string literal up to its closing quote. -/
def parseStrBody (s : Str) : Option (Str × Str) := parseStrBodyAux false s

/-- Read a maximal run of decimal digit characters. -/
def readDigits : Str → (List Nat × Str)
  | [] => ([], [])
  | c :: t =>
    if isDigitChar c then
      let p := readDigits t
      (digitVal c :: p.1, p.2)
    else ([], c :: t)

/-- Numeric value of a digit run (most significant first). -/
def digitsVal (ds : List Nat) : Nat := ds.foldl (fun a d => 10 * a + d) 0

mutual

/-- Fuel-indexed recursive-descent parser for a JSON value, models
`JSON.parse` on the covered subset. -/
def parseVal : Nat → Str → Option (Json × Str)
  | 0, _ => none
  | fuel + 1, s =>
    match skipWS s with
    | [] => none
    | c :: t =>
      if c = '"' then (parseStrBody t).map (fun p => (.jstr p.1, p.2))
      else if c = '{' then
        match skipWS t with
        | [] => none
        | d :: r =>
          if d = '}' then some (.jobj [], r)
          else (parseMembers fuel (d :: r)).map (fun p => (.jobj p.1, p.2))
      else if c = '[' then
        match skipWS t with
        | [] => none
        | d :: r =>
          if d = ']' then some (.jarr [], r)
          else (parseElems fuel (d :: r)).map (fun p => (.jarr p.1, p.2))
      else if c = '-' then
        match readDigits t with
        | ([], _) => none
        | (ds, r) => some (.jnum (-(digitsVal ds : Int)), r)
      else if isDigitChar c then
        let p := readDigits (c :: t)
        some (.jnum (digitsVal p.1), p.2)
      else none

/-- Parse one or more object members followed by a closing brace. -/
def parseMembers : Nat → Str → Option (List (Str × Json) × Str)
  | 0, _ => none
  | fuel + 1, s =>
    match s with
    | [] => none
    | c :: t =>
      if c = '"' then
        match parseStrBody t with
        | none => none
        | some (k, r1) =>
          match skipWS r1 with
          | [] => none
          | d :: r2 =>
            if d = ':' then
              match parseVal fuel r2 with
              | none => none
              | some (v, r3) =>
                match skipWS r3 with
                | [] => none
                | e :: r4 =>
                  if e = ',' then
                    (parseMembers fuel (skipWS r4)).map
                      (fun p => ((k, v) :: p.1, p.2))
                  else if e = '}' then some ([(k, v)], r4)
                  else none
            else none
      else none

/-- Parse one or more array elements followed by a closing bracket. -/
def parseElems : Nat → Str → Option (List Json × Str)
  | 0, _ => none
  | fuel + 1, s =>
    match parseVal fuel s with
    | none => none
    | some (v, r) =>
      match skipWS r with
      | [] => none
      | e :: r2 =>
        if e = ',' then (parseElems fuel r2).map (fun p => (v :: p.1, p.2))
        else if e = ']' then some ([v], r2)
        else none

end

/-- Model of `JSON.parse`: parse a full JSON text, allowing trailing
whitespace only. -/
def jsonParse (s : Str) : Option Json :=
  match parseVal (s.length + 1) s with
  | some (v, r) => if skipWS r = [] then some v else none
  | none => none

example :
    jsonParse ("\x7b\"a\":1,\"b\":[-2,\"x\"]\x7d".toList)
      = some (.jobj [("a".toList, .jnum 1),
                     ("b".toList, .jarr [.jnum (-2), .jstr "x".toList])]) := by
  rfl

example : jsonParse (serJson (.jobj [])) = some (.jobj []) := by rfl

example :
    jsonParse (serJson (.jobj [("k".toList, .jstr "a\"b\\c\nd".toList)]))
      = some (.jobj [("k".toList, .jstr "a\"b\\c\nd".toList)]) := by rfl

/-! ## Response normalizer

Faithful translation of `parseJSON` (src/services/gemini.ts lines 269-287):
trim, strip a leading markdown fence and its closing fence, slice from the
first opening brace to the last closing brace, then `JSON.parse`. -/

/-- Model of the regex replace of a trailing whitespace-then-fence match:
the pattern anchored at the end removes the final three backticks together
with the whitespace run immediately before them, and leaves the text
unchanged when it does not end with a fence. -/
def stripFenceEnd (s : Str) : Str :=
  if endsWithL ("```".toList) s then dropRightWS (s.take (s.length - 3)) else s

/-- Fence-stripping stage of `parseJSON`: if the trimmed text starts with a
fenced code block marker (with or without the json language tag), remove the
opening marker with following whitespace and the closing fence. -/
def stripFences (t : Str) : Str :=
  if startsWithL ("```json".toList) t then stripFenceEnd (skipWS (t.drop 7))
  else if startsWithL ("```".toList) t then stripFenceEnd (skipWS (t.drop 3))
  else t

/-- Brace-slicing stage of `parseJSON`: slice from the first opening brace
to the last closing brace when both exist. -/
def braceSlice (t : Str) : Str :=
  match idxOfChar '{' t, lastIdxOfChar '}' t with
  | some i, some j => jsSubstring t i (j + 1)
  | _, _ => t

/-- Cleaning pipeline of `parseJSON`: trim, strip fences, slice braces. -/
def cleanJsonText (text : Str) : Str := braceSlice (stripFences (trimChars text))

/-- Model of the source function `parseJSON`: clean the raw model output,
then parse it as JSON. -/
def parseJSON (text : Str) : Option Json := jsonParse (cleanJsonText text)

example :
    cleanJsonText ("```json\n\x7b\"a\":1\x7d\n```".toList) = "\x7b\"a\":1\x7d".toList := by
  rfl

example :
    parseJSON ("Here is the result:\n```json\n\x7b\"a\":1\x7d\n```\nThanks!".toList)
      = some (.jobj [("a".toList, .jnum 1)]) := by rfl

/-! ## Prompt constants

Faithful transcriptions of the template literals in src/services/gemini.ts
(final revision, lines 246-266). -/

/-- Analysis instruction prompt, source constant SYSTEM_PROMPT_TEMPLATE. -/
def SYSTEM_PROMPT_TEMPLATE : Str :=
  ("\n你是一位资深的私人财富管理专家。请分析用户提供的财务数据。\n\n任务要求：\n1. 提取/整理资产信息，识别币种并统一折算为人民币 (CNY)。汇率参考：USD=7.25, HKD=0.93, JPY=0.048。\n2. 自动去重：识别重复的账号或余额。\n3. 识别机构 (entity)：必须识别出该项资产所属的银行（如招商银行、工商银行）或券商（如中信证券、富途证券）。\n4. 资产分类：\n    - 类型 (type): 严格匹配枚举值 [\x27现金与活期\x27, \x27股票\x27, \x27理财/基金\x27, \x27黄金/贵金属\x27, \x27虚拟货币\x27, \x27其他\x27]。\n    - 宏观类别 (macroCategory): 匹配 [\x27流动性资产\x27, \x27投资性资产\x27, \x27风险性资产\x27, \x27稳健型资产\x27]。\n5. 风险量化分析：\n    - 计算前5大股票资产占总股票资产的比例 (stockConcentration)。\n    - 计算资产占比最高的一家机构的比例 (entityConcentration)。\n    - 计算现金及活期占总资产的比例 (cashRatio)。\n    - 识别风险点并生成风险提示列表 (riskAlerts)。\n\n请严格只输出 JSON 格式，不要包含 Markdown 代码块标记（如 ```json），确保 JSON 合法。\n字段必须包含 id (随机字符串), timestamp (当前毫秒戳), totalNetWorthCNY, summary, distributionAnalysis, investmentAdvice, riskMetrics (对象), breakdown (数组)。\n").toList

/-- OCR transcription prompt, source constant OCR_PROMPT. -/
def OCR_PROMPT : Str :=
  "请详细提取这张图片中的所有文字内容，特别是银行账户名称、余额数字、股票代码、持仓金额和币种符号。不要进行分析，只需忠实转录文字。".toList

/-! ## Request and transport model -/

/-- Image file input: base64 payload (as produced by `fileToBase64`) and the
declared media type (possibly empty, like the JS `file.type`). -/
structure JFile where
  b64 : Str
  ftype : Str
deriving DecidableEq

/-- Media type with the source default: png when the file declares none. -/
def mimeOf (f : JFile) : Str :=
  if f.ftype = [] then "image/png".toList else f.ftype

/-- Inline data URI built for image message parts. -/
def dataUri (f : JFile) : Str :=
  "data:".toList ++ mimeOf f ++ ";base64,".toList ++ f.b64

/-- One element of a multimodal chat-message content array. -/
inductive ContentPart where
  | text (t : Str)
  | image (url : Str) (detail : Option Str)
deriving DecidableEq

/-- Chat message content: a plain string or a list of typed parts. -/
inductive MsgContent where
  | plain (s : Str)
  | parts (ps : List ContentPart)
deriving DecidableEq

/-- One chat message of an OpenAI-compatible request. -/
structure ChatMessage where
  role : Str
  content : MsgContent
deriving DecidableEq

/-- Body of an OpenAI-compatible chat-completions request.  The sampling
temperature (a floating-point constant never inspected by the program) is
not modelled; the fields that distinguish the three request kinds are. -/
structure Payload where
  model : Str
  messages : List ChatMessage
  maxTokens : Option Nat
  jsonResponseFormat : Bool
deriving DecidableEq

/-- One recorded outbound network request. -/
inductive NetCall where
  | chat (endpoint apiKey : Str) (payload : Payload)
  | geminiGen (apiKey : Str) (baseUrl : Option Str) (model : Str)
      (images : List (Str × Str))
deriving DecidableEq

/-- Transport response for one fetch: a non-success HTTP status with its
body text, or a success carrying the (possibly absent) extracted field
`choices[0].message.content`. -/
inductive FetchResp where
  | httpErr (status : Nat) (body : Str)
  | httpOk (content : Option Str)
deriving DecidableEq

/-- Content of a successful transport response, if any. -/
def respContent : FetchResp → Option Str
  | .httpErr _ _ => none
  | .httpOk c => c

/-- Transport oracle: what the remote backend answers for a given cleaned
endpoint, API key, and request payload. -/
def FetchOracle := Str → Str → Payload → FetchResp

/-- Error message thrown by `openAIFetch` on a non-success HTTP status. -/
def oaiErrMsg (status : Nat) (body : Str) : Str :=
  "OpenAI API Error (".toList ++ natChars status ++ "): ".toList ++ body

/-- Model of the source helper `openAIFetch` (lines 361-384): normalize the
endpoint, issue the request (recorded in the trace), throw on a non-success
status, otherwise hand back the optional content field. -/
def openAIFetch (oracle : FetchOracle) (endpoint apiKey : Str) (payload : Payload) :
    Except Str (Option Str) × List NetCall :=
  let ep := cleanEndpoint endpoint
  match oracle ep apiKey payload with
  | .httpErr status body => (.error (oaiErrMsg status body), [.chat ep apiKey payload])
  | .httpOk c => (.ok c, [.chat ep apiKey payload])

/-! ## OpenAI-compatible strategy (src/services/gemini.ts lines 386-490) -/

/-- Configuration interface of the orchestration layer, source interface
AnalysisConfig. -/
structure AnalysisConfig where
  provider : Str
  apiKey : Option Str := none
  baseUrl : Option Str := none
  modelName : Option Str := none
  visionModelName : Option Str := none
  visionApiKey : Option Str := none
  visionBaseUrl : Option Str := none
deriving DecidableEq

/-- Split-mode dispatch condition (line 410): a vision model name that is
truthy and not whitespace-only. -/
def useSplit (visionModelName : Option Str) : Bool :=
  jsTruthy visionModelName && trimChars (optVal visionModelName) ≠ []

/-- The OCR request payload built for one image (lines 422-432). -/
def ocrPayload (visionModel : Str) (f : JFile) : Payload :=
  { model := visionModel
    messages := [⟨"user".toList,
      .parts [.text OCR_PROMPT, .image (dataUri f) none]⟩]
    maxTokens := some 1500
    jsonResponseFormat := false }

/-- Per-image header wrapped around one OCR result (line 436); an absent
content field is interpolated as the literal text undefined. -/
def ocrHeader (i : Nat) (c : Option Str) : Str :=
  "[图片 ".toList ++ natChars (i + 1) ++ " 提取内容]:\n".toList
    ++ jsToString c ++ "\n---".toList

/-- Wrapped error message for a failed OCR call (line 438): it names the
vision model and the underlying message, not the image index. -/
def ocrFailMsg (visionModel e : Str) : Str :=
  "视觉模型调用失败 (Model: ".toList ++ visionModel ++ "): ".toList ++ e

/-- One OCR step of the Split sub-mode: fetch, then either wrap the failure
or wrap the extracted text under its per-image header. -/
def ocrStep (oracle : FetchOracle) (vUrl vKey vModel : Str) (i : Nat) (f : JFile) :
    Except Str Str × List NetCall :=
  match openAIFetch oracle vUrl vKey (ocrPayload vModel f) with
  | (.error e, t) => (.error (ocrFailMsg vModel e), t)
  | (.ok c, t) => (.ok (ocrHeader i c), t)

/-- Model of Array.prototype.map with the element index, starting at a
given index. -/
def mapIdxFrom (g : Nat → α → β) : Nat → List α → List β
  | _, [] => []
  | i, a :: t => g i a :: mapIdxFrom g (i + 1) t

/-- Fan-in of the parallel OCR promises: all requests are issued, and the
combined promise fails with the first failure (Promise.all). -/
def collectOk : List (Except Str α) → Except Str (List α)
  | [] => .ok []
  | .error e :: _ => .error e
  | .ok a :: t => (collectOk t).map (a :: ·)

/-- User prompt of the Split-mode reasoning request (line 450). -/
def reasoningUserPrompt (n : Nat) (combined : Str) : Str :=
  "以下是从 ".toList ++ natChars n
    ++ " 张金融账户截图中提取的文字信息，请根据这些信息进行资产汇总和分析，并严格返回 JSON：\n\n".toList
    ++ combined

/-- The Split-mode reasoning request payload (lines 446-454). -/
def reasoningPayload (textModel : Str) (n : Nat) (combined : Str) : Payload :=
  { model := textModel
    messages := [⟨"system".toList, .plain SYSTEM_PROMPT_TEMPLATE⟩,
                 ⟨"user".toList, .plain (reasoningUserPrompt n combined)⟩]
    maxTokens := none
    jsonResponseFormat := true }

/-- The Unified-mode request payload (lines 464-484): instruction text plus
every image inline, high detail. -/
def unifiedPayload (textModel : Str) (files : List JFile) : Payload :=
  { model := textModel
    messages := [⟨"user".toList,
      .parts (.text SYSTEM_PROMPT_TEMPLATE
        :: files.map (fun f => .image (dataUri f) (some "high".toList)))⟩]
    maxTokens := some 4000
    jsonResponseFormat := true }

/-- Placeholder for the engine-dependent message of a JSON.parse
SyntaxError; never inspected by the program. -/
def jsonSyntaxErrMsg : Str := "Unexpected token in JSON".toList

/-- Wrap the optional-returning JSON parse as a JS call that may throw. -/
def jsonParseE (s : Str) : Except Str Json :=
  match jsonParse s with
  | some v => .ok v
  | none => .error jsonSyntaxErrMsg

/-- The source `parseJSON` as a JS call that may throw. -/
def parseJSONE (s : Str) : Except Str Json :=
  match parseJSON s with
  | some v => .ok v
  | none => .error jsonSyntaxErrMsg

/-- Model of the source strategy `callOpenAICompatible` (lines 401-490):
fail-fast configuration guards, then either the Split two-step pipeline or
the Unified single-call pipeline.  Returns the analysis result or the
thrown error message, together with the trace of issued network calls. -/
def callOpenAICompatible (oracle : FetchOracle) (files : List JFile)
    (config : AnalysisConfig) : Except Str Json × List NetCall :=
  if jsTruthy config.baseUrl = false then
    (.error "使用 OpenAI 兼容模式必须提供 Base URL / Endpoint。".toList, [])
  else if jsTruthy config.apiKey = false then
    (.error "API Key 缺失。".toList, [])
  else if jsTruthy config.modelName = false then
    (.error "必须提供推理模型名称。".toList, [])
  else
    let baseUrl := optVal config.baseUrl
    let apiKey := optVal config.apiKey
    let textModel := optVal config.modelName
    if useSplit config.visionModelName then
      let visionModelName := optVal config.visionModelName
      let visionBaseUrl := jsOrStr config.visionBaseUrl baseUrl
      let visionApiKey := jsOrStr config.visionApiKey apiKey
      let steps := mapIdxFrom (ocrStep oracle visionBaseUrl visionApiKey visionModelName) 0 files
      let ocrTrace := (steps.map Prod.snd).flatten
      match collectOk (steps.map Prod.fst) with
      | .error e => (.error e, ocrTrace)
      | .ok extractedTexts =>
        let combinedContext := List.intercalate "\n".toList extractedTexts
        match openAIFetch oracle baseUrl apiKey
            (reasoningPayload textModel files.length combinedContext) with
        | (.error e, t2) => (.error e, ocrTrace ++ t2)
        | (.ok finalText, t2) =>
          if jsTruthy finalText then
            (parseJSONE (jsToString finalText), ocrTrace ++ t2)
          else
            (.error "逻辑模型未返回内容".toList, ocrTrace ++ t2)
    else
      match openAIFetch oracle baseUrl apiKey (unifiedPayload textModel files) with
      | (.error e, t) => (.error e, t)
      | (.ok rawText, t) =>
        if jsTruthy rawText then
          (parseJSONE (jsToString rawText), t)
        else
          (.error "AI 未返回内容".toList, t)

/-! ## Gemini SDK strategy and orchestrator (lines 289-358 and 492-528) -/

/-- Response of the Gemini SDK generation call: an exception thrown by the
SDK, or a response object whose text field may be absent. -/
inductive GeminiResp where
  | thrown (msg : Str)
  | returned (text : Option Str)

/-- Oracle for the Gemini SDK call, keyed on the request data the strategy
passes to the SDK: API key, optional base URL, model name, and the encoded
image parts (base64 data with media type). -/
def GeminiOracle := Str → Option Str → Str → List (Str × Str) → GeminiResp

/-- Model of the source strategy `callGemini` (lines 290-358): one
schema-constrained generation call, empty-text check, raw JSON.parse.  The
request internals of the SDK are opaque; the call is recorded with the data
handed to the SDK. -/
def callGemini (g : GeminiOracle) (files : List JFile) (apiKey : Str)
    (baseUrl : Option Str) (modelName : Option Str) :
    Except Str Json × List NetCall :=
  let targetModel := jsOrStr modelName "gemini-3-pro-preview".toList
  let imageParts := files.map (fun f => (f.b64, mimeOf f))
  let call := NetCall.geminiGen apiKey baseUrl targetModel imageParts
  match g apiKey baseUrl targetModel imageParts with
  | .thrown m => (.error m, [call])
  | .returned text =>
    if jsTruthy text then (jsonParseE (jsToString text), [call])
    else (.error "AI 未返回有效数据".toList, [call])

/-- Error classifier at the orchestrator boundary (lines 508-527): substring
matching on the textual representation of the caught error, in source
order.  There is no rate-limit (429) branch in this revision. -/
def classifyAnalysisError (m : Str) : Str :=
  let errStr := "Error: ".toList ++ m
  if hasSub "API key not valid".toList errStr || hasSub "401".toList errStr then
    "鉴权失败：API Key 无效。".toList
  else if hasSub "403".toList errStr || hasSub "quota".toList errStr then
    "权限不足或配额已耗尽 (403)。".toList
  else if hasSub "Failed to fetch".toList errStr || hasSub "NetworkError".toList errStr then
    "网络连接失败。请检查 Base URL 是否正确，或是否需要开启代理。".toList
  else if hasSub "404".toList errStr then
    "请求路径错误 (404)。请检查 Base URL 或模型名称。".toList
  else if m ≠ [] then
    "API 调用错误: ".toList ++ m
  else
    "资产分析失败，请重试。".toList

/-- Model of the exported orchestrator `analyzeFinancialScreenshots`
(lines 492-528): resolve the API key against the environment default,
fail fast when absent, dispatch on the provider tag, and classify any
thrown failure into a user-facing message. -/
def analyzeFinancialScreenshots (oracle : FetchOracle) (g : GeminiOracle)
    (envKey : Option Str) (files : List JFile) (config : AnalysisConfig) :
    Except Str Json × List NetCall :=
  let apiKey := jsOrOpt config.apiKey envKey
  if jsTruthy apiKey = false then
    (.error "API Key 缺失。请在设置中配置您的 Key。".toList, [])
  else
    let finalConfig := { config with apiKey := apiKey }
    let r :=
      if config.provider = "openai".toList then
        callOpenAICompatible oracle files finalConfig
      else
        callGemini g files (optVal finalConfig.apiKey) finalConfig.baseUrl
          finalConfig.modelName
    match r with
    | (.ok v, t) => (.ok v, t)
    | (.error e, t) => (.error (classifyAnalysisError e), t)

/-! ## Output schema as a validation reference

The generation schema attached to the structured-vision request
(lines 313-351) is the machine-checkable description of a well-formed
AssetAnalysisResult; the spec uses it as the validation reference for the
normalizer path.  Note that it constrains kinds and enum membership only:
it contains no numeric range constraint. -/

/-- Enum values of AssetType (src/types.ts). -/
def assetTypeEnum : List Str :=
  ["现金与活期".toList, "股票".toList, "理财/基金".toList,
   "黄金/贵金属".toList, "虚拟货币".toList, "其他".toList]

/-- Enum values of MacroCategory (src/types.ts). -/
def macroCategoryEnum : List Str :=
  ["流动性资产".toList, "投资性资产".toList, "风险性资产".toList,
   "稳健型资产".toList]

/-- First binding of a key in a JSON object member list. -/
def jsonField (k : Str) : List (Str × Json) → Option Json
  | [] => none
  | (k', v) :: t => if k' = k then some v else jsonField k t

/-- Field of a JSON value that is an object. -/
def getField (j : Json) (k : Str) : Option Json :=
  match j with
  | .jobj fs => jsonField k fs
  | _ => none

/-- Check that a field is present and is a string. -/
def fieldIsStr (fs : List (Str × Json)) (k : Str) : Bool :=
  match jsonField k fs with
  | some (.jstr _) => true
  | _ => false

/-- Check that a field is present and is a number. -/
def fieldIsNum (fs : List (Str × Json)) (k : Str) : Bool :=
  match jsonField k fs with
  | some (.jnum _) => true
  | _ => false

/-- Check that a field is present and is an array of strings. -/
def fieldIsStrArr (fs : List (Str × Json)) (k : Str) : Bool :=
  match jsonField k fs with
  | some (.jarr xs) => xs.all (fun x => match x with | .jstr _ => true | _ => false)
  | _ => false

/-- Check that a field is a string drawn from an enum list. -/
def fieldIsEnum (fs : List (Str × Json)) (k : Str) (enumVals : List Str) : Bool :=
  match jsonField k fs with
  | some (.jstr s) => enumVals.contains s
  | _ => false

/-- Schema conformance of the riskMetrics object (lines 322-331): three
numbers and a string list, all required.  No range constraint exists. -/
def riskMetricsValid (j : Json) : Bool :=
  match j with
  | .jobj fs =>
    fieldIsNum fs "stockConcentration".toList
      && fieldIsNum fs "entityConcentration".toList
      && fieldIsNum fs "cashRatio".toList
      && fieldIsStrArr fs "riskAlerts".toList
  | _ => false

/-- Schema conformance of one breakdown item (lines 332-348). -/
def breakdownItemValid (j : Json) : Bool :=
  match j with
  | .jobj fs =>
    fieldIsStr fs "name".toList
      && fieldIsStr fs "entity".toList
      && fieldIsNum fs "originalAmount".toList
      && fieldIsStr fs "currency".toList
      && fieldIsNum fs "convertedAmountCNY".toList
      && fieldIsEnum fs "type".toList assetTypeEnum
      && fieldIsEnum fs "macroCategory".toList macroCategoryEnum
      && (match jsonField "description".toList fs with
          | none => true
          | some (.jstr _) => true
          | some _ => false)
  | _ => false

/-- Schema conformance of a complete AssetAnalysisResult (lines 313-351). -/
def resultSchemaValid (j : Json) : Bool :=
  match j with
  | .jobj fs =>
    fieldIsStr fs "id".toList
      && fieldIsNum fs "timestamp".toList
      && fieldIsNum fs "totalNetWorthCNY".toList
      && fieldIsStr fs "summary".toList
      && fieldIsStr fs "distributionAnalysis".toList
      && fieldIsStr fs "investmentAdvice".toList
      && (match jsonField "riskMetrics".toList fs with
          | some r => riskMetricsValid r
          | none => false)
      && (match jsonField "breakdown".toList fs with
          | some (.jarr xs) => xs.all breakdownItemValid
          | _ => false)
  | _ => false

/-! ## Basic string lemmas -/

theorem skipWS_cons_of_not_ws {c : Char} (h : isWS c = false) (t : Str) :
    skipWS (c :: t) = c :: t := by
  simp [skipWS, List.dropWhile_cons, h]

theorem dropWhile_append_of_ne_nil {p : Char → Bool} {a : Str} (b : Str)
    (h : a.dropWhile p ≠ []) :
    (a ++ b).dropWhile p = a.dropWhile p ++ b := by
  induction a with
  | nil => simp at h
  | cons c t ih =>
    by_cases hc : p c = true
    · simp only [List.dropWhile_cons, hc, if_true] at h
      simp only [List.cons_append, List.dropWhile_cons, hc, if_true]
      exact ih h
    · have hc' : p c = false := by simpa using hc
      simp [List.cons_append, List.dropWhile_cons, hc']

theorem dropRightWS_append {b : Str} (a : Str) (h : dropRightWS b ≠ []) :
    dropRightWS (a ++ b) = a ++ dropRightWS b := by
  unfold dropRightWS at *
  rw [List.reverse_append]
  rw [dropWhile_append_of_ne_nil a.reverse (by simpa using h)]
  simp

theorem dropRightWS_cons_of_not_ws {c : Char} (h : isWS c = false) (s t : Str)
    (hs : s = t ++ [c]) : dropRightWS s = s := by
  subst hs
  unfold dropRightWS
  simp [List.dropWhile_cons, h]

theorem startsWithL_self_append (p r : Str) : startsWithL p (p ++ r) = true := by
  induction p with
  | nil => rfl
  | cons c t ih => simp [startsWithL, ih]

theorem startsWithL_cons_ne {c d : Char} (h : c ≠ d) (p s : Str) :
    startsWithL (c :: p) (d :: s) = false := by
  simp [startsWithL, h]

theorem startsWithL_nil_cons (c : Char) (s : Str) :
    startsWithL [] (c :: s) = true := rfl

theorem take_append_left (a b : Str) : (a ++ b).take a.length = a := by
  simp

theorem drop_append_left (a b : Str) : (a ++ b).drop a.length = b := by
  simp

theorem idxOfChar_first {c : Char} {a : Str} (h : c ∉ a) (t : Str) :
    idxOfChar c (a ++ c :: t) = some a.length := by
  induction a with
  | nil => simp [idxOfChar]
  | cons d s ih =>
    have hd : d ≠ c := by rintro rfl; exact h (List.mem_cons_self _ _)
    have hm : c ∉ s := fun hm => h (List.mem_cons_of_mem _ hm)
    simp [idxOfChar, hd, ih hm]

/-! ## Decimal digit lemmas -/

theorem digitChar_mem (d : Nat) : digitChar d ∈ decDigits := by
  unfold digitChar List.getD
  cases h : decDigits.get? d with
  | none => simp [h]; decide
  | some c =>
    have := List.get?_mem h
    simp [h, this]

theorem isDigitChar_digitChar (d : Nat) : isDigitChar (digitChar d) = true := by
  have hall : ∀ c ∈ decDigits, isDigitChar c = true := by decide
  exact hall _ (digitChar_mem d)

theorem digitVal_digitChar {d : Nat} (h : d < 10) : digitVal (digitChar d) = d := by
  interval_cases d <;> decide

theorem isWS_digitChar (d : Nat) : isWS (digitChar d) = false := by
  have hall : ∀ c ∈ decDigits, isWS c = false := by decide
  exact hall _ (digitChar_mem d)

theorem natDigitsAux_eq (fuel n : Nat) (h : n ≤ fuel) :
    natDigitsAux fuel n = Nat.digits 10 n := by
  induction fuel generalizing n with
  | zero =>
    have hn : n = 0 := by omega
    subst hn
    simp [natDigitsAux]
  | succ fuel ih =>
    by_cases hn : n = 0
    · subst hn; simp [natDigitsAux]
    · unfold natDigitsAux
      rw [if_neg hn]
      have hlt : n / 10 < n := Nat.div_lt_self (Nat.pos_of_ne_zero hn) (by norm_num)
      rw [ih (n / 10) (by omega)]
      exact (Nat.digits_def' (by norm_num : (1 : Nat) < 10)
        (Nat.pos_of_ne_zero hn)).symm

theorem natDigitsLE_eq (n : Nat) : natDigitsLE n = Nat.digits 10 n :=
  natDigitsAux_eq n n le_rfl

theorem natChars_ne_nil (n : Nat) : natChars n ≠ [] := by
  unfold natChars
  by_cases h : n = 0
  · simp [h]
  · simp [h, natDigitsLE_eq, Nat.digits_ne_nil_iff_ne_zero]

theorem natChars_all_digits (n : Nat) : ∀ c ∈ natChars n, isDigitChar c = true := by
  intro c hc
  unfold natChars at hc
  by_cases h : n = 0
  · simp [h] at hc
    subst hc; decide
  · simp only [h, if_false, List.mem_map, ite_false] at hc
    obtain ⟨d, _, rfl⟩ := hc
    exact isDigitChar_digitChar d

theorem natChars_eq_digits_map (n : Nat) (h : n ≠ 0) :
    natChars n = (Nat.digits 10 n).reverse.map digitChar := by
  unfold natChars
  rw [if_neg h, natDigitsLE_eq]

/-- Big-endian digit list of a natural number, as produced by `natChars`. -/
def bigDigits (n : Nat) : List Nat :=
  if n = 0 then [0] else (Nat.digits 10 n).reverse

theorem natChars_eq_map (n : Nat) : natChars n = (bigDigits n).map digitChar := by
  by_cases h : n = 0
  · subst h; decide
  · rw [natChars_eq_digits_map n h]
    unfold bigDigits
    simp [h]

theorem bigDigits_lt (n : Nat) : ∀ d ∈ bigDigits n, d < 10 := by
  intro d hd
  unfold bigDigits at hd
  by_cases h : n = 0
  · simp [h] at hd; omega
  · simp only [h, if_false, List.mem_reverse, ite_false] at hd
    exact Nat.digits_lt_base (by norm_num) hd

theorem readDigits_map (ds : List Nat) (r : Str) (hds : ∀ d ∈ ds, d < 10)
    (hr : ∀ c, r.head? = some c → isDigitChar c = false) :
    readDigits (ds.map digitChar ++ r) = (ds, r) := by
  induction ds with
  | nil =>
    cases r with
    | nil => rfl
    | cons c t =>
      have := hr c rfl
      simp [readDigits, this]
  | cons d t ih =>
    have hd : d < 10 := hds d (List.mem_cons_self _ _)
    have ht : ∀ x ∈ t, x < 10 := fun x hx => hds x (List.mem_cons_of_mem _ hx)
    simp [readDigits, isDigitChar_digitChar, ih ht, digitVal_digitChar hd]

theorem digitsVal_foldr (l : List Nat) :
    l.foldr (fun d a => d + 10 * a) 0 = Nat.ofDigits 10 l := by
  induction l with
  | nil => simp [Nat.ofDigits]
  | cons d t ih => simp [Nat.ofDigits_cons, ih]

theorem digitsVal_bigDigits (n : Nat) : digitsVal (bigDigits n) = n := by
  unfold digitsVal bigDigits
  by_cases h : n = 0
  · simp [h]
  · simp only [h, if_false, ite_false]
    rw [List.foldl_reverse]
    have : (Nat.digits 10 n).foldr (fun x y => 10 * y + x) 0
        = (Nat.digits 10 n).foldr (fun d a => d + 10 * a) 0 := by
      congr 1
      funext x y
      omega
    rw [this, digitsVal_foldr, Nat.ofDigits_digits]

theorem readDigits_natChars (n : Nat) (r : Str)
    (hr : ∀ c, r.head? = some c → isDigitChar c = false) :
    readDigits (natChars n ++ r) = (bigDigits n, r) := by
  rw [natChars_eq_map]
  exact readDigits_map _ _ (bigDigits_lt n) hr

/-! ## String escape round trip -/

theorem parseStrBody_escape (s r : Str) :
    parseStrBody (escapeChars s ++ '"' :: r) = some (s, r) := by
  unfold parseStrBody
  induction s with
  | nil => rfl
  | cons c t ih =>
    by_cases h1 : c = '"'
    · subst h1
      have step : parseStrBodyAux false (escapeChars ('"' :: t) ++ '"' :: r)
          = (parseStrBodyAux false (escapeChars t ++ '"' :: r)).map
              (fun p => ('"' :: p.1, p.2)) := rfl
      rw [step, ih]; rfl
    · by_cases h2 : c = '\\'
      · subst h2
        have step : parseStrBodyAux false (escapeChars ('\\' :: t) ++ '"' :: r)
            = (parseStrBodyAux false (escapeChars t ++ '"' :: r)).map
                (fun p => ('\\' :: p.1, p.2)) := rfl
        rw [step, ih]; rfl
      · by_cases h3 : c = '\n'
        · subst h3
          have step : parseStrBodyAux false (escapeChars ('\n' :: t) ++ '"' :: r)
              = (parseStrBodyAux false (escapeChars t ++ '"' :: r)).map
                  (fun p => ('\n' :: p.1, p.2)) := rfl
          rw [step, ih]; rfl
        · by_cases h4 : c = '\t'
          · subst h4
            have step : parseStrBodyAux false (escapeChars ('\t' :: t) ++ '"' :: r)
                = (parseStrBodyAux false (escapeChars t ++ '"' :: r)).map
                    (fun p => ('\t' :: p.1, p.2)) := rfl
            rw [step, ih]; rfl
          · by_cases h5 : c = '\r'
            · subst h5
              have step : parseStrBodyAux false (escapeChars ('\r' :: t) ++ '"' :: r)
                  = (parseStrBodyAux false (escapeChars t ++ '"' :: r)).map
                      (fun p => ('\r' :: p.1, p.2)) := rfl
              rw [step, ih]; rfl
            · have he : escapeChars (c :: t) = c :: escapeChars t := by
                simp only [escapeChars]
                rw [if_neg h1, if_neg h2, if_neg h3, if_neg h4, if_neg h5]
              rw [he, List.cons_append]
              unfold parseStrBodyAux
              rw [if_neg h2, if_neg h1, ih]
              rfl

/-! ## Fuel measures and serialization shape lemmas -/

mutual

/-- Fuel needed to parse a serialized value. -/
def jfuel : Json → Nat
  | .jnum _ => 1
  | .jstr _ => 1
  | .jarr xs => lfuel xs + 1
  | .jobj fs => ffuel fs + 1

/-- Fuel needed to parse a serialized element list. -/
def lfuel : List Json → Nat
  | [] => 1
  | x :: t => jfuel x + lfuel t

/-- Fuel needed to parse a serialized member list. -/
def ffuel : List (Str × Json) → Nat
  | [] => 1
  | kv :: t => jfuel kv.2 + ffuel t

end

theorem jfuel_pos (j : Json) : 1 ≤ jfuel j := by
  cases j <;> simp [jfuel]

theorem lfuel_pos (xs : List Json) : 1 ≤ lfuel xs := by
  cases xs with
  | nil => simp [lfuel]
  | cons x t => simp [lfuel]; have := jfuel_pos x; omega

theorem ffuel_pos (fs : List (Str × Json)) : 1 ≤ ffuel fs := by
  cases fs with
  | nil => simp [ffuel]
  | cons kv t => simp [ffuel]; have := jfuel_pos kv.2; omega

theorem bigDigits_ne_nil (n : Nat) : bigDigits n ≠ [] := by
  unfold bigDigits
  by_cases h : n = 0
  · simp [h]
  · simp [h, Nat.digits_ne_nil_iff_ne_zero]

theorem natChars_head (n : Nat) :
    ∃ c t, natChars n = c :: t ∧ isDigitChar c = true := by
  rw [natChars_eq_map]
  cases hd : bigDigits n with
  | nil => exact absurd hd (bigDigits_ne_nil n)
  | cons d ds => exact ⟨digitChar d, ds.map digitChar, rfl, isDigitChar_digitChar d⟩

theorem digit_not_special {c : Char} (h : isDigitChar c = true) :
    c ≠ '"' ∧ c ≠ '{' ∧ c ≠ '[' ∧ c ≠ '-' ∧ isWS c = false
      ∧ c ≠ ']' ∧ c ≠ '}' ∧ c ≠ ',' ∧ c ≠ ':' := by
  refine ⟨?_, ?_, ?_, ?_, ?_, ?_, ?_, ?_, ?_⟩
  all_goals try (rintro rfl; exact absurd h (by decide))
  by_contra hw
  have hw' : isWS c = true := by simpa using hw
  have : ((c = ' ' ∨ c = '\n') ∨ c = '\t') ∨ c = '\r' := by
    simpa [isWS] using hw'
  rcases this with ((rfl | rfl) | rfl) | rfl <;> exact absurd h (by decide)

/-- Unpacked description of the first character of a serialized value: it is
never whitespace nor a closing delimiter, comma, or colon. -/
theorem serJson_head (j : Json) :
    ∃ c t, serJson j = c :: t ∧ isWS c = false
      ∧ c ≠ ']' ∧ c ≠ '}' ∧ c ≠ ',' ∧ c ≠ ':' := by
  cases j with
  | jnum i =>
    cases i with
    | ofNat k =>
      obtain ⟨c, t, hct, hd⟩ := natChars_head k
      obtain ⟨_, _, _, _, hws, h1, h2, h3, h4⟩ := digit_not_special hd
      exact ⟨c, t, by simp [serJson, intChars, hct], hws, h1, h2, h3, h4⟩
    | negSucc m =>
      exact ⟨'-', natChars (m + 1), by simp [serJson, intChars], by decide,
        by decide, by decide, by decide, by decide⟩
  | jstr s =>
    exact ⟨'"', escapeChars s ++ ['"'], by simp [serJson, serStr], by decide,
      by decide, by decide, by decide, by decide⟩
  | jarr xs =>
    exact ⟨'[', serArr xs ++ [']'], by simp [serJson], by decide,
      by decide, by decide, by decide, by decide⟩
  | jobj fs =>
    exact ⟨'{', serObj fs ++ ['}'], by simp [serJson], by decide,
      by decide, by decide, by decide, by decide⟩

theorem skipWS_serJson_append (j : Json) (r : Str) :
    skipWS (serJson j ++ r) = serJson j ++ r := by
  obtain ⟨c, t, hct, hws, -⟩ := serJson_head j
  rw [hct, List.cons_append, skipWS_cons_of_not_ws hws]

/-- Guard on the text following a serialized number: the maximal-munch
digit reader must not swallow characters of the continuation. -/
def numGuard (j : Json) (r : Str) : Prop :=
  match j with
  | .jnum _ => ∀ c, r.head? = some c → isDigitChar c = false
  | _ => True

theorem numGuard_cons (x : Json) {e : Char} (he : isDigitChar e = false) (r : Str) :
    numGuard x (e :: r) := by
  cases x with
  | jnum i =>
    intro c hc
    have hce : e = c := by simpa using hc
    rw [← hce]; exact he
  | jstr s => exact trivial
  | jarr xs => exact trivial
  | jobj fs => exact trivial

theorem serArr_head (x : Json) (xs : List Json) :
    ∃ c t, serArr (x :: xs) = c :: t ∧ isWS c = false
      ∧ c ≠ ']' ∧ c ≠ '}' ∧ c ≠ ',' ∧ c ≠ ':' := by
  obtain ⟨c, t, hct, hws, h1, h2, h3, h4⟩ := serJson_head x
  cases xs with
  | nil => exact ⟨c, t, by simp [serArr, hct], hws, h1, h2, h3, h4⟩
  | cons y ys =>
    exact ⟨c, t ++ ',' :: serArr (y :: ys), by simp [serArr, hct], hws, h1, h2, h3, h4⟩

theorem serObj_head (k : Str) (v : Json) (fs : List (Str × Json)) :
    ∃ t, serObj ((k, v) :: fs) = '"' :: t := by
  cases fs with
  | nil => exact ⟨escapeChars k ++ ['"'] ++ ':' :: serJson v, by simp [serObj, serStr]⟩
  | cons g gs =>
    exact ⟨escapeChars k ++ ['"'] ++ ':' :: serJson v ++ ',' :: serObj (g :: gs),
      by simp [serObj, serStr]⟩

mutual

/-- Round trip of the value parser over the serializer. -/
theorem parseVal_ser (j : Json) (n : Nat) (r : Str) (hn : jfuel j ≤ n)
    (hg : numGuard j r) : parseVal n (serJson j ++ r) = some (j, r) := by
  obtain ⟨m, rfl⟩ : ∃ m, n = m + 1 := ⟨n - 1, by have := jfuel_pos j; omega⟩
  cases j with
  | jnum i =>
    have hg' : ∀ c, r.head? = some c → isDigitChar c = false := hg
    cases i with
    | ofNat k =>
      obtain ⟨c, t, hct, hd⟩ := natChars_head k
      obtain ⟨e1, e2, e3, e4, e5, -⟩ := digit_not_special hd
      have hser : serJson (.jnum (Int.ofNat k)) ++ r = c :: (t ++ r) := by
        simp [serJson, intChars, hct]
      rw [hser]
      simp only [parseVal]
      rw [skipWS_cons_of_not_ws e5]
      simp only [if_neg e1, if_neg e2, if_neg e3, if_neg e4, if_pos hd]
      have hrd : readDigits (c :: (t ++ r)) = (bigDigits k, r) := by
        rw [← List.cons_append, ← hct]
        exact readDigits_natChars k r hg'
      simp [hrd, digitsVal_bigDigits]
    | negSucc k =>
      have hser : serJson (.jnum (Int.negSucc k)) ++ r
          = '-' :: (natChars (k + 1) ++ r) := by
        simp [serJson, intChars]
      rw [hser]
      simp only [parseVal]
      rw [skipWS_cons_of_not_ws (by decide)]
      simp only [if_neg (by decide : ¬('-' : Char) = '"'),
        if_neg (by decide : ¬('-' : Char) = '{'),
        if_neg (by decide : ¬('-' : Char) = '['), if_pos rfl]
      rw [readDigits_natChars (k + 1) r hg']
      cases hb : bigDigits (k + 1) with
      | nil => exact absurd hb (bigDigits_ne_nil _)
      | cons d ds =>
        have hv : digitsVal (d :: ds) = k + 1 := by
          rw [← hb]; exact digitsVal_bigDigits (k + 1)
        simp [hv, Int.negSucc_eq]
  | jstr s =>
    have hser : serJson (.jstr s) ++ r = '"' :: (escapeChars s ++ '"' :: r) := by
      simp [serJson, serStr]
    rw [hser]
    have step : parseVal (m + 1) ('"' :: (escapeChars s ++ '"' :: r))
        = (parseStrBody (escapeChars s ++ '"' :: r)).map
            (fun p => (Json.jstr p.1, p.2)) := rfl
    rw [step, parseStrBody_escape]
    rfl
  | jarr xs =>
    cases xs with
    | nil =>
      have hser : serJson (.jarr []) ++ r = '[' :: (']' :: r) := by
        simp [serJson, serArr]
      rw [hser]
      exact rfl
    | cons x ys =>
      obtain ⟨c, t, hct, hws, h1, h2, h3, h4⟩ := serArr_head x ys
      have hser : serJson (.jarr (x :: ys)) ++ r
          = '[' :: (serArr (x :: ys) ++ ']' :: r) := by
        simp [serJson]
      rw [hser]
      have step : parseVal (m + 1) ('[' :: (serArr (x :: ys) ++ ']' :: r))
          = (match skipWS (serArr (x :: ys) ++ ']' :: r) with
             | [] => none
             | d :: rr =>
               if d = ']' then some (Json.jarr [], rr)
               else (parseElems m (d :: rr)).map (fun p => (Json.jarr p.1, p.2))) := rfl
      rw [step]
      have hS : serArr (x :: ys) ++ ']' :: r = c :: (t ++ ']' :: r) := by
        rw [hct]; rfl
      rw [hS, skipWS_cons_of_not_ws hws]
      simp only [if_neg h1]
      rw [← hS]
      have hfu : lfuel (x :: ys) ≤ m := by
        simp only [jfuel] at hn; omega
      rw [parseElems_ser (x :: ys) m r (by simp) hfu]
      rfl
  | jobj fs =>
    cases fs with
    | nil =>
      have hser : serJson (.jobj []) ++ r = '{' :: ('}' :: r) := by
        simp [serJson, serObj]
      rw [hser]
      exact rfl
    | cons f gs =>
      obtain ⟨k, v⟩ := f
      obtain ⟨t, hct⟩ := serObj_head k v gs
      have hser : serJson (.jobj ((k, v) :: gs)) ++ r
          = '{' :: (serObj ((k, v) :: gs) ++ '}' :: r) := by
        simp [serJson]
      rw [hser]
      have step : parseVal (m + 1) ('{' :: (serObj ((k, v) :: gs) ++ '}' :: r))
          = (match skipWS (serObj ((k, v) :: gs) ++ '}' :: r) with
             | [] => none
             | d :: rr =>
               if d = '}' then some (Json.jobj [], rr)
               else (parseMembers m (d :: rr)).map (fun p => (Json.jobj p.1, p.2))) := rfl
      rw [step]
      have hS : serObj ((k, v) :: gs) ++ '}' :: r = '"' :: (t ++ '}' :: r) := by
        rw [hct]; rfl
      rw [hS, skipWS_cons_of_not_ws (by decide)]
      simp only [if_neg (by decide : ¬('"' : Char) = '}')]
      rw [← hS]
      have hfu : ffuel ((k, v) :: gs) ≤ m := by
        simp only [jfuel] at hn; omega
      rw [parseMembers_ser ((k, v) :: gs) m r (by simp) hfu]
      rfl

/-- Round trip of the element-list parser over the serializer. -/
theorem parseElems_ser (xs : List Json) (n : Nat) (r : Str) (hne : xs ≠ [])
    (hn : lfuel xs ≤ n) : parseElems n (serArr xs ++ ']' :: r) = some (xs, r) := by
  obtain ⟨m, rfl⟩ : ∃ m, n = m + 1 := ⟨n - 1, by have := lfuel_pos xs; omega⟩
  have unf : ∀ s, parseElems (m + 1) s
      = (match parseVal m s with
         | none => none
         | some (v, rr) =>
           match skipWS rr with
           | [] => none
           | e :: r2 =>
             if e = ',' then (parseElems m r2).map (fun p => (v :: p.1, p.2))
             else if e = ']' then some ([v], r2)
             else none) := fun s => rfl
  cases xs with
  | nil => exact absurd rfl hne
  | cons x ys =>
    cases ys with
    | nil =>
      have hser : serArr [x] ++ ']' :: r = serJson x ++ ']' :: r := by
        simp [serArr]
      have hfu : jfuel x ≤ m := by
        simp only [lfuel] at hn
        have := lfuel_pos ([] : List Json); omega
      rw [hser, unf, parseVal_ser x m (']' :: r) hfu (numGuard_cons x (by decide) r)]
      simp [skipWS_cons_of_not_ws (show isWS ']' = false by decide)]
    | cons y zs =>
      have hser : serArr (x :: y :: zs) ++ ']' :: r
          = serJson x ++ (',' :: (serArr (y :: zs) ++ ']' :: r)) := by
        simp [serArr]
      have hfx : jfuel x ≤ m := by
        simp only [lfuel] at hn
        have := jfuel_pos y; have := lfuel_pos zs; omega
      have hfy : lfuel (y :: zs) ≤ m := by
        simp only [lfuel] at hn ⊢
        have := jfuel_pos x; omega
      rw [hser, unf, parseVal_ser x m _ hfx (numGuard_cons x (by decide) _)]
      show Option.map (fun p => (x :: p.1, p.2))
          (parseElems m (serArr (y :: zs) ++ ']' :: r)) = some (x :: y :: zs, r)
      rw [parseElems_ser (y :: zs) m r (by simp) hfy]
      rfl

/-- Round trip of the member-list parser over the serializer. -/
theorem parseMembers_ser (fs : List (Str × Json)) (n : Nat) (r : Str) (hne : fs ≠ [])
    (hn : ffuel fs ≤ n) : parseMembers n (serObj fs ++ '}' :: r) = some (fs, r) := by
  obtain ⟨m, rfl⟩ : ∃ m, n = m + 1 := ⟨n - 1, by have := ffuel_pos fs; omega⟩
  cases fs with
  | nil => exact absurd rfl hne
  | cons f gs =>
    obtain ⟨k, v⟩ := f
    cases gs with
    | nil =>
      have hser : serObj [(k, v)] ++ '}' :: r
          = '"' :: (escapeChars k ++ '"' :: (':' :: (serJson v ++ '}' :: r))) := by
        simp [serObj, serStr]
      have hfv : jfuel v ≤ m := by
        simp only [ffuel] at hn
        have := ffuel_pos ([] : List (Str × Json)); omega
      have step : parseMembers (m + 1)
          ('"' :: (escapeChars k ++ '"' :: (':' :: (serJson v ++ '}' :: r))))
          = (match parseStrBody (escapeChars k ++ '"' :: (':' :: (serJson v ++ '}' :: r))) with
             | none => none
             | some (kk, r1) =>
               match skipWS r1 with
               | [] => none
               | d :: r2 =>
                 if d = ':' then
                   match parseVal m r2 with
                   | none => none
                   | some (v', r3) =>
                     match skipWS r3 with
                     | [] => none
                     | e :: r4 =>
                       if e = ',' then
                         (parseMembers m (skipWS r4)).map
                           (fun p => ((kk, v') :: p.1, p.2))
                       else if e = '}' then some ([(kk, v')], r4)
                       else none
                 else none) := rfl
      rw [hser, step, parseStrBody_escape]
      show (match parseVal m (serJson v ++ '}' :: r) with
            | none => none
            | some (v', r3) =>
              match skipWS r3 with
              | [] => none
              | e :: r4 =>
                if e = ',' then
                  (parseMembers m (skipWS r4)).map (fun p => ((k, v') :: p.1, p.2))
                else if e = '}' then some ([(k, v')], r4)
                else none) = some ([(k, v)], r)
      rw [parseVal_ser v m _ hfv (numGuard_cons v (by decide) _)]
      rfl
    | cons g hs =>
      have hser : serObj ((k, v) :: g :: hs) ++ '}' :: r
          = '"' :: (escapeChars k ++ '"' ::
              (':' :: (serJson v ++ ',' :: (serObj (g :: hs) ++ '}' :: r)))) := by
        simp [serObj, serStr]
      have hfv : jfuel v ≤ m := by
        simp only [ffuel] at hn
        have := jfuel_pos g.2; have := ffuel_pos hs; omega
      have hfg : ffuel (g :: hs) ≤ m := by
        simp only [ffuel] at hn ⊢
        have := jfuel_pos v; omega
      have step : parseMembers (m + 1)
          ('"' :: (escapeChars k ++ '"' ::
              (':' :: (serJson v ++ ',' :: (serObj (g :: hs) ++ '}' :: r)))))
          = (match parseStrBody (escapeChars k ++ '"' ::
                (':' :: (serJson v ++ ',' :: (serObj (g :: hs) ++ '}' :: r)))) with
             | none => none
             | some (kk, r1) =>
               match skipWS r1 with
               | [] => none
               | d :: r2 =>
                 if d = ':' then
                   match parseVal m r2 with
                   | none => none
                   | some (v', r3) =>
                     match skipWS r3 with
                     | [] => none
                     | e :: r4 =>
                       if e = ',' then
                         (parseMembers m (skipWS r4)).map
                           (fun p => ((kk, v') :: p.1, p.2))
                       else if e = '}' then some ([(kk, v')], r4)
                       else none
                 else none) := rfl
      rw [hser, step, parseStrBody_escape]
      show (match parseVal m (serJson v ++ ',' :: (serObj (g :: hs) ++ '}' :: r)) with
            | none => none
            | some (v', r3) =>
              match skipWS r3 with
              | [] => none
              | e :: r4 =>
                if e = ',' then
                  (parseMembers m (skipWS r4)).map (fun p => ((k, v') :: p.1, p.2))
                else if e = '}' then some ([(k, v')], r4)
                else none) = some ((k, v) :: g :: hs, r)
      rw [parseVal_ser v m _ hfv (numGuard_cons v (by decide) _)]
      show (parseMembers m (skipWS (serObj (g :: hs) ++ '}' :: r))).map
          (fun p => ((k, v) :: p.1, p.2)) = some ((k, v) :: g :: hs, r)
      obtain ⟨tg, hgobj⟩ := serObj_head g.1 g.2 hs
      have hsk : skipWS (serObj (g :: hs) ++ '}' :: r) = serObj (g :: hs) ++ '}' :: r := by
        rw [show (g :: hs) = ((g.1, g.2) :: hs) by simp, hgobj]
        rw [List.cons_append, skipWS_cons_of_not_ws (by decide)]
      rw [hsk, parseMembers_ser (g :: hs) m r (by simp) hfg]
      rfl

end

mutual

/-- The serialized length dominates the fuel needed for a value. -/
theorem jfuel_le (j : Json) : jfuel j ≤ (serJson j).length + 1 := by
  cases j with
  | jnum i => simp [jfuel]
  | jstr s => simp [jfuel]
  | jarr xs =>
    have h := lfuel_le xs
    simp only [jfuel, serJson]
    simp only [List.length_cons, List.length_append, List.length_singleton]
    omega
  | jobj fs =>
    have h := ffuel_le fs
    simp only [jfuel, serJson]
    simp only [List.length_cons, List.length_append, List.length_singleton]
    omega

/-- The serialized length dominates the fuel needed for an element list. -/
theorem lfuel_le (xs : List Json) : lfuel xs ≤ (serArr xs).length + 2 := by
  cases xs with
  | nil => simp [lfuel, serArr]
  | cons x ys =>
    cases ys with
    | nil =>
      have h := jfuel_le x
      simp only [lfuel, serArr, lfuel]
      omega
    | cons y zs =>
      have h1 := jfuel_le x
      have h2 := lfuel_le (y :: zs)
      simp only [lfuel, serArr] at *
      simp only [List.length_append, List.length_cons] at *
      omega

/-- The serialized length dominates the fuel needed for a member list. -/
theorem ffuel_le (fs : List (Str × Json)) : ffuel fs ≤ (serObj fs).length + 2 := by
  cases fs with
  | nil => simp [ffuel, serObj]
  | cons f gs =>
    obtain ⟨k, v⟩ := f
    cases gs with
    | nil =>
      have h := jfuel_le v
      simp only [ffuel, serObj, ffuel]
      simp only [List.length_append, List.length_cons]
      omega
    | cons g hs =>
      have h1 := jfuel_le v
      have h2 := ffuel_le (g :: hs)
      simp only [ffuel, serObj] at *
      simp only [List.length_append, List.length_cons] at *
      omega

end

theorem numGuard_nil (j : Json) : numGuard j [] := by
  cases j with
  | jnum i => intro c hc; simp at hc
  | jstr s => exact trivial
  | jarr xs => exact trivial
  | jobj fs => exact trivial

/-- Round trip of the whole-text JSON parser over the serializer. -/
theorem jsonParse_serJson (j : Json) : jsonParse (serJson j) = some j := by
  unfold jsonParse
  have h := parseVal_ser j ((serJson j).length + 1) []
    (by have := jfuel_le j; omega) (numGuard_nil j)
  rw [List.append_nil] at h
  rw [h]
  rfl

/-! ## Brace-slice extraction lemmas -/

theorem reverse_head?_getLast? (l : Str) : l.reverse.head? = l.getLast? := by
  cases hr : l.reverse with
  | nil =>
    have : l = [] := by simpa using congrArg List.reverse hr
    simp [this]
  | cons c t =>
    have hl : l = t.reverse ++ [c] := by
      have := congrArg List.reverse hr
      simpa using this
    simp [hl]

theorem braceSlice_decomp (A j B : Str) (hA : '{' ∉ A) (hB : '}' ∉ B)
    (hj1 : j.head? = some '{') (hj2 : j.getLast? = some '}') :
    braceSlice (A ++ j ++ B) = j := by
  obtain ⟨jt, rfl⟩ : ∃ jt, j = '{' :: jt := by
    cases j with
    | nil => simp at hj1
    | cons c t =>
      have hc : c = '{' := by simpa using hj1
      exact ⟨t, by rw [hc]⟩
  have hidx : idxOfChar '{' (A ++ '{' :: jt ++ B) = some A.length := by
    rw [List.append_assoc, List.cons_append]
    exact idxOfChar_first hA (jt ++ B)
  obtain ⟨jr, hjr⟩ : ∃ jr, ('{' :: jt).reverse = '}' :: jr := by
    have h2 : ('{' :: jt).reverse.head? = some '}' := by
      rw [reverse_head?_getLast?]; exact hj2
    cases hr : ('{' :: jt).reverse with
    | nil => rw [hr] at h2; simp at h2
    | cons c t =>
      rw [hr] at h2
      have hc : c = '}' := by simpa using h2
      exact ⟨t, by rw [hc]⟩
  have hrev : (A ++ '{' :: jt ++ B).reverse = B.reverse ++ '}' :: (jr ++ A.reverse) := by
    have hjr' : jt.reverse ++ ['{'] = '}' :: jr := by simpa using hjr
    simp only [List.reverse_append, List.reverse_cons]
    rw [hjr']
    simp
  have hBrev : '}' ∉ B.reverse := by simpa using hB
  have hidx2 : idxOfChar '}' ((A ++ '{' :: jt ++ B).reverse)
      = some B.reverse.length := by
    rw [hrev]
    exact idxOfChar_first hBrev (jr ++ A.reverse)
  have hlast : lastIdxOfChar '}' (A ++ '{' :: jt ++ B)
      = some ((A ++ '{' :: jt ++ B).length - 1 - B.length) := by
    unfold lastIdxOfChar
    rw [hidx2]
    simp
  have hlen : (A ++ '{' :: jt ++ B).length
      = A.length + (jt.length + 1) + B.length := by
    simp [List.length_append]
    omega
  unfold braceSlice
  rw [hidx, hlast]
  show jsSubstring (A ++ '{' :: jt ++ B) A.length
      ((A ++ '{' :: jt ++ B).length - 1 - B.length + 1) = '{' :: jt
  have hb : (A ++ '{' :: jt ++ B).length - 1 - B.length + 1
      = A.length + ('{' :: jt).length := by
    simp only [hlen, List.length_cons]
    omega
  rw [hb]
  unfold jsSubstring
  have hmin : min A.length (A.length + ('{' :: jt).length) = A.length := by omega
  have hmax : max A.length (A.length + ('{' :: jt).length)
      = A.length + ('{' :: jt).length := by omega
  rw [hmin, hmax]
  have hd : (A ++ '{' :: jt ++ B).drop A.length = '{' :: jt ++ B := by
    rw [List.append_assoc]
    exact drop_append_left A ('{' :: jt ++ B)
  rw [hd]
  have hsub : A.length + ('{' :: jt).length - A.length = ('{' :: jt).length := by omega
  rw [hsub]
  exact take_append_left ('{' :: jt) B

/-! ## Trim and fence lemmas -/

theorem dropRightWS_eq_self {s : Str} {c : Char} (h : s.getLast? = some c)
    (hc : isWS c = false) : dropRightWS s = s := by
  have h2 : s.reverse.head? = some c := by rw [reverse_head?_getLast?]; exact h
  cases hr : s.reverse with
  | nil => rw [hr] at h2; simp at h2
  | cons d t =>
    rw [hr] at h2
    have hd : d = c := by simpa using h2
    subst hd
    unfold dropRightWS
    rw [hr, List.dropWhile_cons, hc]
    simp only [Bool.false_eq_true, if_false]
    rw [← hr, List.reverse_reverse]

theorem trimChars_eq_self {s : Str} {a b : Char} (h1 : s.head? = some a)
    (ha : isWS a = false) (h2 : s.getLast? = some b) (hb : isWS b = false) :
    trimChars s = s := by
  cases s with
  | nil => simp at h1
  | cons c t =>
    have hc : c = a := by simpa using h1
    subst hc
    unfold trimChars
    rw [List.dropWhile_cons, ha]
    simp only [Bool.false_eq_true, if_false]
    exact dropRightWS_eq_self h2 hb

theorem getLast?_append_concat (X Y : Str) (c : Char) :
    (X ++ (Y ++ [c])).getLast? = some c := by
  rw [← List.append_assoc]
  exact List.getLast?_concat _

/-- Fence wrapping of a serialized payload, as in the round-trip test
property of the spec. -/
def fenceWrap (s : Str) : Str := "```json\n".toList ++ s ++ "\n```".toList

theorem dropRightWS_append_newline {s : Str} {b : Char} (h : s.getLast? = some b)
    (hb : isWS b = false) : dropRightWS (s ++ ['\n']) = s := by
  unfold dropRightWS
  rw [List.reverse_append]
  show List.reverse (List.dropWhile isWS ('\n' :: s.reverse)) = s
  rw [List.dropWhile_cons]
  simp only [show isWS '\n' = true from rfl, if_true]
  have h2 : s.reverse.head? = some b := by rw [reverse_head?_getLast?]; exact h
  cases hr : s.reverse with
  | nil => rw [hr] at h2; simp at h2
  | cons d t =>
    rw [hr] at h2
    have hd : d = b := by simpa using h2
    subst hd
    rw [List.dropWhile_cons, hb]
    simp only [Bool.false_eq_true, if_false]
    rw [← hr, List.reverse_reverse]

theorem stripFences_fenceWrap {s : Str} (h1 : s.head? = some '{')
    (h2 : s.getLast? = some '}') : stripFences (fenceWrap s) = s := by
  obtain ⟨st, rfl⟩ : ∃ st, s = '{' :: st := by
    cases s with
    | nil => simp at h1
    | cons c t =>
      have hc : c = '{' := by simpa using h1
      exact ⟨t, by rw [hc]⟩
  have hstart : startsWithL ("```json".toList) (fenceWrap ('{' :: st)) = true := by
    show startsWithL ("```json".toList)
      ("```json".toList ++ ('\n' :: (('{' :: st) ++ "\n```".toList))) = true
    exact startsWithL_self_append _ _
  unfold stripFences
  rw [if_pos hstart]
  have hdrop : (fenceWrap ('{' :: st)).drop 7
      = '\n' :: (('{' :: st) ++ "\n```".toList) := rfl
  rw [hdrop]
  have hskip : skipWS ('\n' :: (('{' :: st) ++ "\n```".toList))
      = ('{' :: st) ++ "\n```".toList := by
    show skipWS ('\n' :: ('{' :: (st ++ "\n```".toList)))
      = '{' :: (st ++ "\n```".toList)
    unfold skipWS
    rw [List.dropWhile_cons]
    simp only [show isWS '\n' = true from rfl, if_true]
    rw [List.dropWhile_cons]
    simp only [show isWS '{' = false from rfl, Bool.false_eq_true, if_false]
  rw [hskip]
  unfold stripFenceEnd
  have hends : endsWithL ("```".toList) (('{' :: st) ++ "\n```".toList) = true := by
    unfold endsWithL
    have hrw : (('{' :: st) ++ "\n```".toList).reverse
        = "```".toList.reverse ++ ('\n' :: ('{' :: st).reverse) := by
      rw [List.reverse_append]
      rfl
    rw [hrw]
    exact startsWithL_self_append _ _
  rw [if_pos hends]
  have hX : ('{' :: st) ++ "\n```".toList
      = (('{' :: st) ++ ['\n']) ++ ['`', '`', '`'] := by simp
  rw [hX]
  have hlen3 : ((('{' :: st) ++ ['\n']) ++ ['`', '`', '`']).length - 3
      = (('{' :: st) ++ ['\n']).length := by
    simp
  rw [hlen3, take_append_left]
  exact dropRightWS_append_newline h2 (by decide)

theorem cleanJsonText_fenceWrap {s : Str} (h1 : s.head? = some '{')
    (h2 : s.getLast? = some '}') : cleanJsonText (fenceWrap s) = s := by
  unfold cleanJsonText
  have htrim : trimChars (fenceWrap s) = fenceWrap s := by
    apply trimChars_eq_self (a := '`') (b := '`')
    · rfl
    · rfl
    · show ((("```json\n".toList ++ s) ++ (['\n', '`', '`'] ++ ['`'])).getLast?) = some '`'
      exact getLast?_append_concat _ _ _
    · rfl
  rw [htrim, stripFences_fenceWrap h1 h2]
  have := braceSlice_decomp [] s [] (by simp) (by simp) h1 h2
  simpa using this

/-- The serialized form of an object value starts with an opening brace. -/
theorem serJson_obj_head (fs : List (Str × Json)) :
    (serJson (.jobj fs)).head? = some '{' := by
  simp [serJson]

/-- The serialized form of an object value ends with a closing brace. -/
theorem serJson_obj_last (fs : List (Str × Json)) :
    (serJson (.jobj fs)).getLast? = some '}' := by
  simp only [serJson]
  exact List.getLast?_concat _

/-- Round trip of the full response normalizer over a fence-wrapped
serialized object. -/
theorem parseJSON_fenceWrap_obj (fs : List (Str × Json)) :
    parseJSON (fenceWrap (serJson (.jobj fs))) = some (.jobj fs) := by
  unfold parseJSON
  rw [cleanJsonText_fenceWrap (serJson_obj_head fs) (serJson_obj_last fs)]
  exact jsonParse_serJson _

/-- The response normalizer is the identity modulo parsing on a bare
serialized object. -/
theorem parseJSON_ser_obj (fs : List (Str × Json)) :
    parseJSON (serJson (.jobj fs)) = some (.jobj fs) := by
  unfold parseJSON cleanJsonText
  obtain ⟨X, hX⟩ : ∃ X, serJson (.jobj fs) = '{' :: X :=
    ⟨serObj fs ++ ['}'], by simp [serJson]⟩
  have htrim : trimChars (serJson (.jobj fs)) = serJson (.jobj fs) :=
    trimChars_eq_self (serJson_obj_head fs) (by decide)
      (serJson_obj_last fs) (by decide)
  rw [htrim]
  have hsf : stripFences (serJson (.jobj fs)) = serJson (.jobj fs) := by
    unfold stripFences
    rw [hX]
    rw [if_neg (by rw [show startsWithL ("```json".toList) ('{' :: X) = false from rfl]; simp)]
    rw [if_neg (by rw [show startsWithL ("```".toList) ('{' :: X) = false from rfl]; simp)]
  rw [hsf]
  have := braceSlice_decomp [] (serJson (.jobj fs)) [] (by simp) (by simp)
    (serJson_obj_head fs) (serJson_obj_last fs)
  rw [show ([] : Str) ++ serJson (.jobj fs) ++ [] = serJson (.jobj fs) by simp] at this
  rw [this]
  exact jsonParse_serJson _

/-! ## Prose-wrapped extraction -/

theorem mem_of_mem_dropWhile {p : Char → Bool} {a : Char} {l : Str}
    (h : a ∈ l.dropWhile p) : a ∈ l := by
  induction l with
  | nil => simp at h
  | cons c t ih =>
    rw [List.dropWhile_cons] at h
    by_cases hc : p c = true
    · simp only [hc, if_true] at h
      exact List.mem_cons_of_mem _ (ih h)
    · simp only [hc, if_false] at h
      exact h

theorem dropWhile_head_false {p : Char → Bool} {l : Str} {c : Char} {t : Str}
    (h : l.dropWhile p = c :: t) : p c = false := by
  induction l with
  | nil => simp at h
  | cons a l' ih =>
    rw [List.dropWhile_cons] at h
    by_cases ha : p a = true
    · rw [ha, if_pos rfl] at h
      exact ih h
    · simp only [ha, if_false] at h
      have : a = c := by simpa using congrArg List.head? h
      rw [← this]
      simpa using ha

theorem mem_of_mem_dropRightWS {a : Char} {l : Str} (h : a ∈ dropRightWS l) :
    a ∈ l := by
  unfold dropRightWS at h
  rw [List.mem_reverse] at h
  have := mem_of_mem_dropWhile h
  rwa [List.mem_reverse] at this

/-- Behavior of the cleaning pipeline on model output of the shape
leading prose, fenced JSON object, trailing prose: the slice from the
first opening brace to the last closing brace is exactly the object text. -/
theorem cleanJsonText_prose (pre j post : Str) (c0 : Char) (t0 : Str)
    (hpreT : pre.dropWhile isWS = c0 :: t0) (hc0 : c0 ≠ '`')
    (hpre1 : '{' ∉ pre) (hpost2 : '}' ∉ post)
    (hpostT : dropRightWS post ≠ [])
    (hj1 : j.head? = some '{') (hj2 : j.getLast? = some '}') :
    cleanJsonText (pre ++ "```json\n".toList ++ j ++ "\n```".toList ++ post) = j := by
  have hd0 : isWS c0 = false := dropWhile_head_false hpreT
  unfold cleanJsonText
  have hassoc1 : pre ++ "```json\n".toList ++ j ++ "\n```".toList ++ post
      = pre ++ ("```json\n".toList ++ (j ++ ("\n```".toList ++ post))) := by
    simp [List.append_assoc]
  rw [hassoc1]
  have hne : pre.dropWhile isWS ≠ [] := by rw [hpreT]; simp
  have htrim : trimChars (pre ++ ("```json\n".toList ++ (j ++ ("\n```".toList ++ post))))
      = ((c0 :: t0) ++ ("```json\n".toList ++ (j ++ "\n```".toList))) ++ dropRightWS post := by
    unfold trimChars
    rw [dropWhile_append_of_ne_nil _ hne, hpreT]
    have hassoc2 : (c0 :: t0) ++ ("```json\n".toList ++ (j ++ ("\n```".toList ++ post)))
        = ((c0 :: t0) ++ ("```json\n".toList ++ (j ++ "\n```".toList))) ++ post := by
      simp [List.append_assoc]
    rw [hassoc2]
    exact dropRightWS_append _ hpostT
  rw [htrim]
  have hcons : ((c0 :: t0) ++ ("```json\n".toList ++ (j ++ "\n```".toList))) ++ dropRightWS post
      = c0 :: ((t0 ++ ("```json\n".toList ++ (j ++ "\n```".toList))) ++ dropRightWS post) := by
    simp
  have hsf : stripFences (((c0 :: t0) ++ ("```json\n".toList ++ (j ++ "\n```".toList)))
        ++ dropRightWS post)
      = ((c0 :: t0) ++ ("```json\n".toList ++ (j ++ "\n```".toList))) ++ dropRightWS post := by
    unfold stripFences
    have hne1 : ('`' : Char) ≠ c0 := fun h => hc0 h.symm
    rw [hcons]
    rw [if_neg (by
      rw [show startsWithL ("```json".toList)
          (c0 :: ((t0 ++ ("```json\n".toList ++ (j ++ "\n```".toList))) ++ dropRightWS post))
        = startsWithL ('`' :: "``json".toList)
          (c0 :: ((t0 ++ ("```json\n".toList ++ (j ++ "\n```".toList))) ++ dropRightWS post))
        from rfl]
      rw [startsWithL_cons_ne hne1]
      simp)]
    rw [if_neg (by
      rw [show startsWithL ("```".toList)
          (c0 :: ((t0 ++ ("```json\n".toList ++ (j ++ "\n```".toList))) ++ dropRightWS post))
        = startsWithL ('`' :: "``".toList)
          (c0 :: ((t0 ++ ("```json\n".toList ++ (j ++ "\n```".toList))) ++ dropRightWS post))
        from rfl]
      rw [startsWithL_cons_ne hne1]
      simp)]
  rw [hsf]
  have hgroup : ((c0 :: t0) ++ ("```json\n".toList ++ (j ++ "\n```".toList))) ++ dropRightWS post
      = ((c0 :: t0) ++ "```json\n".toList) ++ j ++ ("\n```".toList ++ dropRightWS post) := by
    simp [List.append_assoc]
  rw [hgroup]
  apply braceSlice_decomp
  · intro hm
    rcases List.mem_append.mp hm with hm1 | hm2
    · rw [← hpreT] at hm1
      exact hpre1 (mem_of_mem_dropWhile hm1)
    · revert hm2
      decide
  · intro hm
    rcases List.mem_append.mp hm with hm1 | hm2
    · revert hm1
      decide
    · exact hpost2 (mem_of_mem_dropRightWS hm2)
  · exact hj1
  · exact hj2

/-! ## Strategy-level lemmas -/

/-- Predicate for a failed JS call result. -/
def isErrE {α : Type} : Except Str α → Bool
  | .error _ => true
  | .ok _ => false

theorem jsTruthy_some_of_ne {s : Str} (h : s ≠ []) : jsTruthy (some s) = true := by
  simp [jsTruthy, h]

theorem ocrStep_snd (oracle : FetchOracle) (vUrl vKey vModel : Str) (i : Nat) (f : JFile) :
    (ocrStep oracle vUrl vKey vModel i f).2
      = [NetCall.chat (cleanEndpoint vUrl) vKey (ocrPayload vModel f)] := by
  unfold ocrStep openAIFetch
  dsimp only
  cases oracle (cleanEndpoint vUrl) vKey (ocrPayload vModel f) <;> rfl

theorem ocrStep_fst_ok {oracle : FetchOracle} {vUrl vKey vModel : Str} {f : JFile}
    {c : Option Str} (i : Nat)
    (h : oracle (cleanEndpoint vUrl) vKey (ocrPayload vModel f) = .httpOk c) :
    (ocrStep oracle vUrl vKey vModel i f).1 = .ok (ocrHeader i c) := by
  unfold ocrStep openAIFetch
  dsimp only
  rw [h]

theorem ocrStep_fst_err {oracle : FetchOracle} {vUrl vKey vModel : Str} {f : JFile}
    {st : Nat} {body : Str} (i : Nat)
    (h : oracle (cleanEndpoint vUrl) vKey (ocrPayload vModel f) = .httpErr st body) :
    (ocrStep oracle vUrl vKey vModel i f).1
      = .error (ocrFailMsg vModel (oaiErrMsg st body)) := by
  unfold ocrStep openAIFetch
  dsimp only
  rw [h]

theorem ocrStep_fst_shape (oracle : FetchOracle) (vUrl vKey vModel : Str) (i : Nat)
    (f : JFile) :
    (∃ c, (ocrStep oracle vUrl vKey vModel i f).1 = .ok (ocrHeader i c))
      ∨ ∃ e, (ocrStep oracle vUrl vKey vModel i f).1 = .error (ocrFailMsg vModel e) := by
  cases h : oracle (cleanEndpoint vUrl) vKey (ocrPayload vModel f) with
  | httpErr st body => exact Or.inr ⟨oaiErrMsg st body, ocrStep_fst_err i h⟩
  | httpOk c => exact Or.inl ⟨c, ocrStep_fst_ok i h⟩

theorem ocrSteps_trace (oracle : FetchOracle) (vUrl vKey vModel : Str) :
    ∀ (i : Nat) (files : List JFile),
      ((mapIdxFrom (ocrStep oracle vUrl vKey vModel) i files).map Prod.snd).flatten
        = files.map (fun f => NetCall.chat (cleanEndpoint vUrl) vKey (ocrPayload vModel f)) := by
  intro i files
  induction files generalizing i with
  | nil => rfl
  | cons f fs ih => simp [mapIdxFrom, ocrStep_snd, ih]

theorem collectOk_map_ok {α : Type} (l : List α) :
    collectOk (l.map Except.ok) = .ok l := by
  induction l with
  | nil => rfl
  | cons a t ih => simp [collectOk, ih, Except.map]

theorem collectOk_err {α : Type} (l : List (Except Str α))
    (h : ∃ x ∈ l, isErrE x = true) :
    ∃ e, collectOk l = .error e ∧ Except.error e ∈ l := by
  induction l with
  | nil => simp at h
  | cons x t ih =>
    cases x with
    | error e => exact ⟨e, rfl, List.mem_cons_self _ _⟩
    | ok a =>
      obtain ⟨y, hy, hye⟩ := h
      rcases List.mem_cons.mp hy with rfl | hyt
      · simp [isErrE] at hye
      · obtain ⟨e, hc, hm⟩ := ih ⟨y, hyt, hye⟩
        exact ⟨e, by simp [collectOk, hc, Except.map], List.mem_cons_of_mem _ hm⟩

theorem mem_ocr_results_shape {oracle : FetchOracle} {vUrl vKey vModel : Str}
    {x : Except Str Str} :
    ∀ {i : Nat} {files : List JFile},
      x ∈ mapIdxFrom (fun i f => (ocrStep oracle vUrl vKey vModel i f).1) i files →
      (∃ n c, x = .ok (ocrHeader n c)) ∨ ∃ e, x = .error (ocrFailMsg vModel e) := by
  intro i files
  induction files generalizing i with
  | nil => intro h; simp [mapIdxFrom] at h
  | cons f fs ih =>
    intro h
    rcases List.mem_cons.mp h with rfl | ht
    · rcases ocrStep_fst_shape oracle vUrl vKey vModel i f with ⟨c, hc⟩ | ⟨e, he⟩
      · exact Or.inl ⟨i, c, by simpa using hc⟩
      · exact Or.inr ⟨e, by simpa using he⟩
    · exact ih ht

theorem collectOk_ocr_all_ok {oracle : FetchOracle} {vUrl vKey vModel : Str}
    (hoc : ∀ f : JFile, ∃ c, oracle (cleanEndpoint vUrl) vKey (ocrPayload vModel f)
      = .httpOk c) :
    ∀ (i : Nat) (files : List JFile),
      collectOk ((mapIdxFrom (fun i f => (ocrStep oracle vUrl vKey vModel i f).1) i files))
        = .ok (mapIdxFrom (fun i f =>
            ocrHeader i (respContent (oracle (cleanEndpoint vUrl) vKey (ocrPayload vModel f))))
            i files) := by
  intro i files
  induction files generalizing i with
  | nil => rfl
  | cons f fs ih =>
    obtain ⟨c, hc⟩ := hoc f
    simp [mapIdxFrom, collectOk, ocrStep_fst_ok i hc, ih, hc, respContent, Except.map]

/-- The Unified branch of the strategy, once the guards have passed. -/
def unifiedRun (oracle : FetchOracle) (files : List JFile) (bu ak mn : Str) :
    Except Str Json × List NetCall :=
  match openAIFetch oracle bu ak (unifiedPayload mn files) with
  | (.error e, t) => (.error e, t)
  | (.ok rawText, t) =>
    if jsTruthy rawText then (parseJSONE (jsToString rawText), t)
    else (.error "AI 未返回内容".toList, t)

/-- The Split branch of the strategy, once the guards have passed. -/
def splitRun (oracle : FetchOracle) (files : List JFile) (bu ak mn vm : Str)
    (vak vbu : Option Str) : Except Str Json × List NetCall :=
  let vUrl := jsOrStr vbu bu
  let vKey := jsOrStr vak ak
  let steps := mapIdxFrom (ocrStep oracle vUrl vKey vm) 0 files
  let ocrTrace := (steps.map Prod.snd).flatten
  match collectOk (steps.map Prod.fst) with
  | .error e => (.error e, ocrTrace)
  | .ok texts =>
    let combined := List.intercalate "\n".toList texts
    match openAIFetch oracle bu ak (reasoningPayload mn files.length combined) with
    | (.error e, t2) => (.error e, ocrTrace ++ t2)
    | (.ok finalText, t2) =>
      if jsTruthy finalText then (parseJSONE (jsToString finalText), ocrTrace ++ t2)
      else (.error "逻辑模型未返回内容".toList, ocrTrace ++ t2)

theorem callOAI_eq (oracle : FetchOracle) (files : List JFile) (prov bu ak mn : Str)
    (vmn vak vbu : Option Str) (hbu : bu ≠ []) (hak : ak ≠ []) (hmn : mn ≠ []) :
    callOpenAICompatible oracle files
      { provider := prov, apiKey := some ak, baseUrl := some bu, modelName := some mn,
        visionModelName := vmn, visionApiKey := vak, visionBaseUrl := vbu }
      = if useSplit vmn then splitRun oracle files bu ak mn (optVal vmn) vak vbu
        else unifiedRun oracle files bu ak mn := by
  unfold callOpenAICompatible splitRun unifiedRun
  simp [jsTruthy, hbu, hak, hmn, optVal]

/-! ## Claim C1: endpoint normalization -/

theorem startsWithL_of_append {a b s : Str} (h : startsWithL (a ++ b) s = true) :
    startsWithL a s = true := by
  induction a generalizing s with
  | nil => rfl
  | cons c t ih =>
    cases s with
    | nil => simp [startsWithL] at h
    | cons d u =>
      rw [List.cons_append, startsWithL] at h
      rw [startsWithL]
      rcases Bool.and_eq_true_iff.mp h with ⟨h1, h2⟩
      rw [h1, ih h2]
      rfl

theorem endsWithL_chat_of_v1 {c : Str}
    (h : endsWithL ("/v1/chat/completions".toList) c = true) :
    endsWithL ("/chat/completions".toList) c = true := by
  unfold endsWithL at *
  have hsplit : ("/v1/chat/completions".toList).reverse
      = ("/chat/completions".toList).reverse ++ "/v1".toList.reverse := by decide
  rw [hsplit] at h
  exact startsWithL_of_append h

/-- Claim C1 counterexample: the two base URLs of the claim do not resolve
to the same effective endpoint — the bare host receives the path
"/chat/completions", not "/v1/chat/completions". -/
theorem C1_counterexample :
    cleanEndpoint "https://api.example.com/".toList
        = "https://api.example.com/chat/completions".toList
      ∧ cleanEndpoint "https://api.example.com/".toList
        ≠ cleanEndpoint "https://api.example.com/v1/chat/completions".toList := by
  decide

/-- Claim C1 (amended): the caller-supplied base URL is normalized by
removing one trailing slash and appending the path "/chat/completions"
exactly when the stripped URL does not already end with that path (the
"/v1/chat/completions" check is subsumed); a URL already carrying the
chat-completions path is left unchanged, so the path is never duplicated. -/
theorem C1_endpoint_normalization (s : Str) :
    (endsWithL ("/chat/completions".toList)
        (if endsWithL ['/'] s then s.dropLast else s) = true →
      cleanEndpoint s = (if endsWithL ['/'] s then s.dropLast else s))
    ∧ (endsWithL ("/chat/completions".toList)
        (if endsWithL ['/'] s then s.dropLast else s) = false →
      cleanEndpoint s = (if endsWithL ['/'] s then s.dropLast else s)
        ++ "/chat/completions".toList) := by
  constructor
  · intro h
    unfold cleanEndpoint
    dsimp only
    rw [h]
    simp
  · intro h
    have hv1 : endsWithL ("/v1/chat/completions".toList)
        (if endsWithL ['/'] s then s.dropLast else s) = false := by
      by_contra hc
      have : endsWithL ("/v1/chat/completions".toList)
          (if endsWithL ['/'] s then s.dropLast else s) = true := by
        simpa using hc
      rw [endsWithL_chat_of_v1 this] at h
      simp at h
    unfold cleanEndpoint
    dsimp only
    rw [h, hv1]
    simp

/-- Witness for the amended C1 at the two URLs of the claim. -/
theorem C1_endpoint_normalization_witness :
    cleanEndpoint "https://api.example.com/".toList
        = (if endsWithL ['/'] "https://api.example.com/".toList
           then "https://api.example.com/".toList.dropLast
           else "https://api.example.com/".toList) ++ "/chat/completions".toList
      ∧ cleanEndpoint "https://api.example.com/v1/chat/completions".toList
        = (if endsWithL ['/'] "https://api.example.com/v1/chat/completions".toList
           then "https://api.example.com/v1/chat/completions".toList.dropLast
           else "https://api.example.com/v1/chat/completions".toList) :=
  ⟨(C1_endpoint_normalization _).2 (by decide),
   (C1_endpoint_normalization _).1 (by decide)⟩

/-! ## Claim C3: error classifier -/

/-- Claim C3 counterexample: an error whose textual representation contains
429 (and no other matched pattern) is mapped to the generic API-call-error
message with the raw message appended — this revision has no rate-limit
branch and the produced message carries no retry-later suggestion. -/
theorem C3_counterexample :
    classifyAnalysisError ("OpenAI API Error (429): Too Many Requests".toList)
        = "API 调用错误: ".toList ++ "OpenAI API Error (429): Too Many Requests".toList
      ∧ hasSub "请稍后重试".toList
          (classifyAnalysisError ("OpenAI API Error (429): Too Many Requests".toList))
        = false := by
  decide

/-- Claim C3 (amended): the classifier matches the textual representation
of the caught error in source order: 401 or API-key-not-valid gives the
authentication message; otherwise 403 or quota gives the permission/quota
message; otherwise Failed-to-fetch or NetworkError gives the connectivity
message; otherwise 404 gives the endpoint/model misconfiguration message;
any other error with a nonempty message — including one containing 429 —
gives the generic API-call-error message with the raw message appended. -/
theorem C3_error_classifier (m : Str) :
    (hasSub "API key not valid".toList ("Error: ".toList ++ m) = true
        ∨ hasSub "401".toList ("Error: ".toList ++ m) = true →
      classifyAnalysisError m = "鉴权失败：API Key 无效。".toList)
    ∧ (hasSub "API key not valid".toList ("Error: ".toList ++ m) = false →
       hasSub "401".toList ("Error: ".toList ++ m) = false →
       hasSub "403".toList ("Error: ".toList ++ m) = true
        ∨ hasSub "quota".toList ("Error: ".toList ++ m) = true →
      classifyAnalysisError m = "权限不足或配额已耗尽 (403)。".toList)
    ∧ (hasSub "API key not valid".toList ("Error: ".toList ++ m) = false →
       hasSub "401".toList ("Error: ".toList ++ m) = false →
       hasSub "403".toList ("Error: ".toList ++ m) = false →
       hasSub "quota".toList ("Error: ".toList ++ m) = false →
       hasSub "Failed to fetch".toList ("Error: ".toList ++ m) = true
        ∨ hasSub "NetworkError".toList ("Error: ".toList ++ m) = true →
      classifyAnalysisError m
        = "网络连接失败。请检查 Base URL 是否正确，或是否需要开启代理。".toList)
    ∧ (hasSub "API key not valid".toList ("Error: ".toList ++ m) = false →
       hasSub "401".toList ("Error: ".toList ++ m) = false →
       hasSub "403".toList ("Error: ".toList ++ m) = false →
       hasSub "quota".toList ("Error: ".toList ++ m) = false →
       hasSub "Failed to fetch".toList ("Error: ".toList ++ m) = false →
       hasSub "NetworkError".toList ("Error: ".toList ++ m) = false →
       hasSub "404".toList ("Error: ".toList ++ m) = true →
      classifyAnalysisError m = "请求路径错误 (404)。请检查 Base URL 或模型名称。".toList)
    ∧ (hasSub "API key not valid".toList ("Error: ".toList ++ m) = false →
       hasSub "401".toList ("Error: ".toList ++ m) = false →
       hasSub "403".toList ("Error: ".toList ++ m) = false →
       hasSub "quota".toList ("Error: ".toList ++ m) = false →
       hasSub "Failed to fetch".toList ("Error: ".toList ++ m) = false →
       hasSub "NetworkError".toList ("Error: ".toList ++ m) = false →
       hasSub "404".toList ("Error: ".toList ++ m) = false →
       m ≠ [] →
      classifyAnalysisError m = "API 调用错误: ".toList ++ m) := by
  refine ⟨?_, ?_, ?_, ?_, ?_⟩
  · intro h
    unfold classifyAnalysisError
    dsimp only
    rw [if_pos (show (hasSub "API key not valid".toList ("Error: ".toList ++ m)
        || hasSub "401".toList ("Error: ".toList ++ m)) = true by
      rcases h with h | h
      · rw [h]; simp
      · rw [h]; simp)]
  · intro h1 h2 h
    unfold classifyAnalysisError
    dsimp only
    rw [h1, h2]
    rw [if_neg (by simp)]
    rw [if_pos (show (hasSub "403".toList ("Error: ".toList ++ m)
        || hasSub "quota".toList ("Error: ".toList ++ m)) = true by
      rcases h with h | h
      · rw [h]; simp
      · rw [h]; simp)]
  · intro h1 h2 h3 h4 h
    unfold classifyAnalysisError
    dsimp only
    rw [h1, h2, h3, h4]
    rw [if_neg (by simp), if_neg (by simp)]
    rw [if_pos (show (hasSub "Failed to fetch".toList ("Error: ".toList ++ m)
        || hasSub "NetworkError".toList ("Error: ".toList ++ m)) = true by
      rcases h with h | h
      · rw [h]; simp
      · rw [h]; simp)]
  · intro h1 h2 h3 h4 h5 h6 h
    unfold classifyAnalysisError
    dsimp only
    rw [h1, h2, h3, h4, h5, h6, h]
    rw [if_neg (by simp), if_neg (by simp), if_neg (by simp), if_pos rfl]
  · intro h1 h2 h3 h4 h5 h6 h7 h8
    unfold classifyAnalysisError
    dsimp only
    rw [h1, h2, h3, h4, h5, h6, h7]
    rw [if_neg (by simp), if_neg (by simp), if_neg (by simp), if_neg (by simp),
      if_pos h8]

/-- Witness for the amended C3 on concrete representatives of each
category, including a 429 error landing in the generic category. -/
theorem C3_error_classifier_witness :
    classifyAnalysisError ("got status 401".toList) = "鉴权失败：API Key 无效。".toList
      ∧ classifyAnalysisError ("got status 403".toList)
        = "权限不足或配额已耗尽 (403)。".toList
      ∧ classifyAnalysisError ("Failed to fetch".toList)
        = "网络连接失败。请检查 Base URL 是否正确，或是否需要开启代理。".toList
      ∧ classifyAnalysisError ("got status 404".toList)
        = "请求路径错误 (404)。请检查 Base URL 或模型名称。".toList
      ∧ classifyAnalysisError ("got status 429".toList)
        = "API 调用错误: ".toList ++ "got status 429".toList :=
  ⟨(C3_error_classifier _).1 (Or.inr (by decide)),
   (C3_error_classifier _).2.1 (by decide) (by decide) (Or.inl (by decide)),
   (C3_error_classifier _).2.2.1 (by decide) (by decide) (by decide) (by decide)
     (Or.inl (by decide)),
   (C3_error_classifier _).2.2.2.1 (by decide) (by decide) (by decide) (by decide)
     (by decide) (by decide) (by decide),
   (C3_error_classifier _).2.2.2.2 (by decide) (by decide) (by decide) (by decide)
     (by decide) (by decide) (by decide) (by decide)⟩

/-! ## Claim C5: fail-fast configuration -/

/-- Claim C5: invoking the orchestrator with the OpenAI-compatible provider
and an absent resolved API key, an absent base URL, or an absent reasoning
model name fails with an error naming the missing field category, and the
network trace is empty — zero network calls are made. -/
theorem C5_fail_fast (oracle : FetchOracle) (g : GeminiOracle) (envKey : Option Str)
    (files : List JFile) (cfg : AnalysisConfig) (hp : cfg.provider = "openai".toList) :
    (jsTruthy (jsOrOpt cfg.apiKey envKey) = false →
      analyzeFinancialScreenshots oracle g envKey files cfg
        = (.error "API Key 缺失。请在设置中配置您的 Key。".toList, []))
    ∧ (jsTruthy (jsOrOpt cfg.apiKey envKey) = true → jsTruthy cfg.baseUrl = false →
      analyzeFinancialScreenshots oracle g envKey files cfg
        = (.error ("API 调用错误: ".toList
            ++ "使用 OpenAI 兼容模式必须提供 Base URL / Endpoint。".toList), []))
    ∧ (jsTruthy (jsOrOpt cfg.apiKey envKey) = true → jsTruthy cfg.baseUrl = true →
        jsTruthy cfg.modelName = false →
      analyzeFinancialScreenshots oracle g envKey files cfg
        = (.error ("API 调用错误: ".toList ++ "必须提供推理模型名称。".toList), [])) := by
  refine ⟨?_, ?_, ?_⟩
  · intro hk
    unfold analyzeFinancialScreenshots
    dsimp only
    rw [hk]
    rfl
  · intro hk hb
    unfold analyzeFinancialScreenshots
    dsimp only
    rw [hk]
    rw [if_neg (show ¬(true = false) by simp)]
    unfold callOpenAICompatible
    rw [if_pos (by rw [hp])]
    rw [show ({ cfg with apiKey := jsOrOpt cfg.apiKey envKey } : AnalysisConfig).baseUrl
        = cfg.baseUrl from rfl]
    rw [hb]
    rw [if_pos rfl]
    rfl
  · intro hk hb hm
    unfold analyzeFinancialScreenshots
    dsimp only
    rw [hk]
    rw [if_neg (show ¬(true = false) by simp)]
    unfold callOpenAICompatible
    rw [if_pos (by rw [hp])]
    rw [show ({ cfg with apiKey := jsOrOpt cfg.apiKey envKey } : AnalysisConfig).baseUrl
        = cfg.baseUrl from rfl]
    rw [hb]
    rw [if_neg (show ¬(true = false) by simp)]
    rw [show ({ cfg with apiKey := jsOrOpt cfg.apiKey envKey } : AnalysisConfig).apiKey
        = jsOrOpt cfg.apiKey envKey from rfl]
    rw [hk]
    rw [if_neg (show ¬(true = false) by simp)]
    rw [show ({ cfg with apiKey := jsOrOpt cfg.apiKey envKey } : AnalysisConfig).modelName
        = cfg.modelName from rfl]
    rw [hm]
    rw [if_pos rfl]
    rfl

/-- Witness for C5 at concrete configurations missing each field. -/
theorem C5_fail_fast_witness :
    (analyzeFinancialScreenshots (fun _ _ _ => .httpOk none) (fun _ _ _ _ => .thrown [])
        none [] { provider := "openai".toList }
      = (.error "API Key 缺失。请在设置中配置您的 Key。".toList, []))
    ∧ (analyzeFinancialScreenshots (fun _ _ _ => .httpOk none) (fun _ _ _ _ => .thrown [])
        (some "k".toList) [] { provider := "openai".toList }
      = (.error ("API 调用错误: ".toList
          ++ "使用 OpenAI 兼容模式必须提供 Base URL / Endpoint。".toList), []))
    ∧ (analyzeFinancialScreenshots (fun _ _ _ => .httpOk none) (fun _ _ _ _ => .thrown [])
        (some "k".toList) []
        { provider := "openai".toList, baseUrl := some "https://h".toList }
      = (.error ("API 调用错误: ".toList ++ "必须提供推理模型名称。".toList), [])) :=
  ⟨(C5_fail_fast _ _ _ _ _ (by rfl)).1 (by rfl),
   (C5_fail_fast _ _ _ _ _ (by rfl)).2.1 (by rfl) (by rfl),
   (C5_fail_fast _ _ _ _ _ (by rfl)).2.2 (by rfl) (by rfl) (by rfl)⟩

/-! ## Run-shape lemmas for the two sub-modes -/

theorem mapIdxFrom_map {α β γ : Type} (g : Nat → α → β) (h : β → γ) :
    ∀ (i : Nat) (l : List α),
      (mapIdxFrom g i l).map h = mapIdxFrom (fun i a => h (g i a)) i l := by
  intro i l
  induction l generalizing i with
  | nil => rfl
  | cons a t ih => simp [mapIdxFrom, ih]

theorem mapIdxFrom_length {α β : Type} (g : Nat → α → β) :
    ∀ (i : Nat) (l : List α), (mapIdxFrom g i l).length = l.length := by
  intro i l
  induction l generalizing i with
  | nil => rfl
  | cons a t ih => simp [mapIdxFrom, ih]

theorem unifiedRun_snd (oracle : FetchOracle) (files : List JFile) (bu ak mn : Str) :
    (unifiedRun oracle files bu ak mn).2
      = [NetCall.chat (cleanEndpoint bu) ak (unifiedPayload mn files)] := by
  unfold unifiedRun openAIFetch
  dsimp only
  cases oracle (cleanEndpoint bu) ak (unifiedPayload mn files) with
  | httpErr st body => rfl
  | httpOk c =>
    show (if jsTruthy c then _ else _ :
      Except Str Json × List NetCall).2 = _
    split <;> rfl

theorem splitRun_all_ok (oracle : FetchOracle) (files : List JFile)
    (bu ak mn vm : Str) (vak vbu : Option Str)
    (hoc : ∀ f : JFile, ∃ c, oracle (cleanEndpoint (jsOrStr vbu bu)) (jsOrStr vak ak)
      (ocrPayload vm f) = .httpOk c) :
    splitRun oracle files bu ak mn vm vak vbu
      = (let texts := mapIdxFrom (fun i f => ocrHeader i
            (respContent (oracle (cleanEndpoint (jsOrStr vbu bu)) (jsOrStr vak ak)
              (ocrPayload vm f)))) 0 files
         let combined := List.intercalate "\n".toList texts
         let ocrTrace := files.map (fun f =>
            NetCall.chat (cleanEndpoint (jsOrStr vbu bu)) (jsOrStr vak ak) (ocrPayload vm f))
         match openAIFetch oracle bu ak (reasoningPayload mn files.length combined) with
         | (.error e, t2) => (.error e, ocrTrace ++ t2)
         | (.ok finalText, t2) =>
           if jsTruthy finalText then (parseJSONE (jsToString finalText), ocrTrace ++ t2)
           else (.error "逻辑模型未返回内容".toList, ocrTrace ++ t2)) := by
  unfold splitRun
  dsimp only
  rw [mapIdxFrom_map, collectOk_ocr_all_ok hoc 0 files]
  rw [ocrSteps_trace]

/-! ## Claim C6: sub-mode selection and call pattern -/

/-- Configuration record for the OpenAI-compatible provider with all three
required fields present. -/
def mkOAIConfig (prov bu ak mn : Str) (vmn vak vbu : Option Str) : AnalysisConfig :=
  { provider := prov, apiKey := some ak, baseUrl := some bu, modelName := some mn,
    visionModelName := vmn, visionApiKey := vak, visionBaseUrl := vbu }

/-- Claim C6: with a valid OpenAI-compatible configuration, the Unified
sub-mode (vision model unset) issues exactly one network call carrying all
images; the Split sub-mode (vision model set), when every OCR call
succeeds, issues one OCR call per image followed by exactly one reasoning
call whose context concatenates the per-image headers in original
image-index order. -/
theorem splitRun_all_ok_snd (oracle : FetchOracle) (files : List JFile)
    (bu ak mn vm : Str) (vak vbu : Option Str)
    (hoc : ∀ f : JFile, ∃ c, oracle (cleanEndpoint (jsOrStr vbu bu)) (jsOrStr vak ak)
      (ocrPayload vm f) = .httpOk c) :
    (splitRun oracle files bu ak mn vm vak vbu).2
      = files.map (fun f => NetCall.chat (cleanEndpoint (jsOrStr vbu bu))
          (jsOrStr vak ak) (ocrPayload vm f))
        ++ [NetCall.chat (cleanEndpoint bu) ak
            (reasoningPayload mn files.length
              (List.intercalate "\n".toList
                (mapIdxFrom (fun i f => ocrHeader i
                  (respContent (oracle (cleanEndpoint (jsOrStr vbu bu))
                    (jsOrStr vak ak) (ocrPayload vm f)))) 0 files)))] := by
  rw [splitRun_all_ok oracle files bu ak mn vm vak vbu hoc]
  dsimp only
  unfold openAIFetch
  dsimp only
  cases oracle (cleanEndpoint bu) ak
      (reasoningPayload mn files.length
        (List.intercalate "\n".toList
          (mapIdxFrom (fun i f => ocrHeader i
            (respContent (oracle (cleanEndpoint (jsOrStr vbu bu))
              (jsOrStr vak ak) (ocrPayload vm f)))) 0 files))) with
  | httpErr st body => rfl
  | httpOk c =>
    show (if jsTruthy c = true then _ else _ : Except Str Json × List NetCall).2 = _
    split <;> rfl

/-- Claim C6: with a valid OpenAI-compatible configuration, the Unified
sub-mode (vision model unset) issues exactly one network call carrying all
images; the Split sub-mode (vision model set), when every OCR call
succeeds, issues one OCR call per image followed by exactly one reasoning
call whose context concatenates the per-image headers in original
image-index order. -/
theorem C6_sub_mode_calls (oracle : FetchOracle) (files : List JFile)
    (prov bu ak mn : Str) (vmn vak vbu : Option Str) (cfg : AnalysisConfig)
    (hcfg : cfg = mkOAIConfig prov bu ak mn vmn vak vbu)
    (hbu : bu ≠ []) (hak : ak ≠ []) (hmn : mn ≠ []) :
    (useSplit vmn = false →
      (callOpenAICompatible oracle files cfg).2
        = [NetCall.chat (cleanEndpoint bu) ak (unifiedPayload mn files)])
    ∧ (useSplit vmn = true →
       (∀ f : JFile, ∃ c, oracle (cleanEndpoint (jsOrStr vbu bu)) (jsOrStr vak ak)
          (ocrPayload (optVal vmn) f) = .httpOk c) →
      (callOpenAICompatible oracle files cfg).2
        = files.map (fun f => NetCall.chat (cleanEndpoint (jsOrStr vbu bu))
            (jsOrStr vak ak) (ocrPayload (optVal vmn) f))
          ++ [NetCall.chat (cleanEndpoint bu) ak
              (reasoningPayload mn files.length
                (List.intercalate "\n".toList
                  (mapIdxFrom (fun i f => ocrHeader i
                    (respContent (oracle (cleanEndpoint (jsOrStr vbu bu))
                      (jsOrStr vak ak) (ocrPayload (optVal vmn) f)))) 0 files)))]
        ∧ (callOpenAICompatible oracle files cfg).2.length = files.length + 1) := by
  subst hcfg
  unfold mkOAIConfig
  rw [callOAI_eq oracle files prov bu ak mn vmn vak vbu hbu hak hmn]
  constructor
  · intro hs
    rw [hs]
    rw [if_neg (show ¬(false = true) by simp)]
    exact unifiedRun_snd oracle files bu ak mn
  · intro hs hoc
    rw [hs]
    rw [if_pos rfl]
    refine ⟨splitRun_all_ok_snd oracle files bu ak mn (optVal vmn) vak vbu hoc, ?_⟩
    rw [splitRun_all_ok_snd oracle files bu ak mn (optVal vmn) vak vbu hoc]
    simp

/-- Witness for C6: one file, an always-succeeding transport; the Unified
configuration issues exactly the single chat call, and the Split
configuration issues two calls (one OCR plus one reasoning). -/
theorem C6_sub_mode_calls_witness :
    (callOpenAICompatible (fun _ _ _ => .httpOk (some "t".toList))
        [⟨"AA".toList, "image/png".toList⟩]
        (mkOAIConfig "openai".toList "https://h".toList "k".toList "m".toList
          none none none)).2
      = [NetCall.chat (cleanEndpoint "https://h".toList) "k".toList
          (unifiedPayload "m".toList [⟨"AA".toList, "image/png".toList⟩])]
    ∧ (callOpenAICompatible (fun _ _ _ => .httpOk (some "t".toList))
        [⟨"AA".toList, "image/png".toList⟩]
        (mkOAIConfig "openai".toList "https://h".toList "k".toList "m".toList
          (some "vm".toList) none none)).2.length
      = ([⟨"AA".toList, "image/png".toList⟩] : List JFile).length + 1 :=
  ⟨(C6_sub_mode_calls (fun _ _ _ => .httpOk (some "t".toList))
      [⟨"AA".toList, "image/png".toList⟩]
      "openai".toList "https://h".toList "k".toList "m".toList none none none
      _ rfl (by decide) (by decide) (by decide)).1 (by decide),
   ((C6_sub_mode_calls (fun _ _ _ => .httpOk (some "t".toList))
      [⟨"AA".toList, "image/png".toList⟩]
      "openai".toList "https://h".toList "k".toList "m".toList
      (some "vm".toList) none none
      _ rfl (by decide) (by decide) (by decide)).2 (by decide)
      (fun f => ⟨some "t".toList, rfl⟩)).2⟩

/-! ## Claim C10: whitespace-only vision model names -/

theorem useSplit_trim_nil {w : Str} (h : trimChars w = []) :
    useSplit (some w) = false := by
  unfold useSplit optVal
  simp [h]

theorem useSplit_trim_ne {w : Str} (h : trimChars w ≠ []) :
    useSplit (some w) = true := by
  have hw : w ≠ [] := by
    intro hnil
    rw [hnil] at h
    exact h rfl
  unfold useSplit optVal jsTruthy
  simp [hw, h]

theorem splitRun_snd_shape (oracle : FetchOracle) (files : List JFile)
    (bu ak mn vm : Str) (vak vbu : Option Str) :
    ∃ tail, (splitRun oracle files bu ak mn vm vak vbu).2
      = files.map (fun f => NetCall.chat (cleanEndpoint (jsOrStr vbu bu))
          (jsOrStr vak ak) (ocrPayload vm f)) ++ tail := by
  unfold splitRun
  dsimp only
  rw [ocrSteps_trace]
  split
  · exact ⟨[], by simp⟩
  · split
    · exact ⟨_, rfl⟩
    · rename_i c t heq
      refine ⟨t, ?_⟩
      split <;> rfl

/-- Claim C10: with the OpenAI-compatible provider, a visionModelName that
is whitespace-only behaves exactly like an absent one (the Unified
sub-mode); the Split sub-mode is entered exactly when the vision model
name has a non-whitespace character, in which case the first network call
is the OCR call for the first image against the vision endpoint. -/
theorem C10_vision_dispatch (oracle : FetchOracle) (files : List JFile)
    (prov bu ak mn : Str) (vak vbu : Option Str)
    (hbu : bu ≠ []) (hak : ak ≠ []) (hmn : mn ≠ []) :
    (∀ w : Str, trimChars w = [] →
      callOpenAICompatible oracle files (mkOAIConfig prov bu ak mn (some w) vak vbu)
        = callOpenAICompatible oracle files (mkOAIConfig prov bu ak mn none vak vbu))
    ∧ (∀ w : Str, trimChars w ≠ [] → useSplit (some w) = true)
    ∧ (∀ (w : Str) (f : JFile) (rest : List JFile), trimChars w ≠ [] →
        files = f :: rest →
        (callOpenAICompatible oracle files
            (mkOAIConfig prov bu ak mn (some w) vak vbu)).2.head?
          = some (NetCall.chat (cleanEndpoint (jsOrStr vbu bu)) (jsOrStr vak ak)
              (ocrPayload w f))) := by
  refine ⟨?_, ?_, ?_⟩
  · intro w hw
    unfold mkOAIConfig
    rw [callOAI_eq oracle files prov bu ak mn (some w) vak vbu hbu hak hmn]
    rw [callOAI_eq oracle files prov bu ak mn none vak vbu hbu hak hmn]
    rw [useSplit_trim_nil hw]
    rfl
  · intro w hw
    exact useSplit_trim_ne hw
  · intro w f rest hw hf
    unfold mkOAIConfig
    rw [callOAI_eq oracle files prov bu ak mn (some w) vak vbu hbu hak hmn]
    rw [useSplit_trim_ne hw]
    rw [if_pos rfl]
    obtain ⟨tail, htail⟩ := splitRun_snd_shape oracle files bu ak mn
      (optVal (some w)) vak vbu
    rw [htail, hf]
    rfl

/-- Witness for C10 at a whitespace-only and a non-whitespace vision model
name. -/
theorem C10_vision_dispatch_witness :
    (callOpenAICompatible (fun _ _ _ => .httpOk (some "t".toList))
        [⟨"AA".toList, "image/png".toList⟩]
        (mkOAIConfig "openai".toList "https://h".toList "k".toList "m".toList
          (some "  ".toList) none none)
      = callOpenAICompatible (fun _ _ _ => .httpOk (some "t".toList))
        [⟨"AA".toList, "image/png".toList⟩]
        (mkOAIConfig "openai".toList "https://h".toList "k".toList "m".toList
          none none none))
    ∧ useSplit (some " vm ".toList) = true
    ∧ (callOpenAICompatible (fun _ _ _ => .httpOk (some "t".toList))
        [⟨"AA".toList, "image/png".toList⟩]
        (mkOAIConfig "openai".toList "https://h".toList "k".toList "m".toList
          (some " vm ".toList) none none)).2.head?
      = some (NetCall.chat
          (cleanEndpoint (jsOrStr none "https://h".toList))
          (jsOrStr none "k".toList)
          (ocrPayload " vm ".toList ⟨"AA".toList, "image/png".toList⟩)) :=
  ⟨(C10_vision_dispatch (fun _ _ _ => .httpOk (some "t".toList))
      [⟨"AA".toList, "image/png".toList⟩]
      "openai".toList "https://h".toList "k".toList "m".toList none none
      (by decide) (by decide) (by decide)).1 "  ".toList (by decide),
   (C10_vision_dispatch (fun _ _ _ => .httpOk (some "t".toList))
      [⟨"AA".toList, "image/png".toList⟩]
      "openai".toList "https://h".toList "k".toList "m".toList none none
      (by decide) (by decide) (by decide)).2.1 " vm ".toList (by decide),
   (C10_vision_dispatch (fun _ _ _ => .httpOk (some "t".toList))
      [⟨"AA".toList, "image/png".toList⟩]
      "openai".toList "https://h".toList "k".toList "m".toList none none
      (by decide) (by decide) (by decide)).2.2 " vm ".toList
      ⟨"AA".toList, "image/png".toList⟩ [] (by decide) rfl⟩

/-! ## Claim C2: split-mode OCR failure -/

/-- Image fixture used by the concrete counterexamples. -/
def sampleFile (n : Nat) : JFile := ⟨natChars n, "image/png".toList⟩

/-- Split-mode configuration fixture. -/
def splitCfg : AnalysisConfig :=
  mkOAIConfig "openai".toList "https://h".toList "k".toList "m".toList
    (some "vm".toList) none none

/-- Transport that fails the OCR call of one designated image with HTTP 500
and answers every other request successfully. -/
def failOneOracle (bad : JFile) : FetchOracle := fun _ _ p =>
  if p = ocrPayload "vm".toList bad then .httpErr 500 "boom".toList
  else .httpOk (some "ok".toList)

/-- Claim C2 counterexample: failing OCR call number 2 of 3 and failing OCR
call number 3 of 3 produce the same thrown error value — the re-raised
error wraps only the vision model name and the underlying message, so it
does not identify the offending image position. -/
theorem C2_counterexample :
    (callOpenAICompatible (failOneOracle (sampleFile 2))
        [sampleFile 1, sampleFile 2, sampleFile 3] splitCfg).1
      = (callOpenAICompatible (failOneOracle (sampleFile 3))
        [sampleFile 1, sampleFile 2, sampleFile 3] splitCfg).1
    ∧ (callOpenAICompatible (failOneOracle (sampleFile 2))
        [sampleFile 1, sampleFile 2, sampleFile 3] splitCfg).1
      = .error (ocrFailMsg "vm".toList (oaiErrMsg 500 "boom".toList)) := by
  constructor
  · rfl
  · rfl

/-- Claim C2 (amended): in Split sub-mode, if any single per-image OCR call
fails, the whole invocation fails with an error that wraps the vision
model name and the underlying message (not the image position), no
reasoning call is issued, and no partial analysis is produced — the trace
contains exactly the per-image OCR calls. -/
theorem C2_split_failure_aborts (oracle : FetchOracle) (files : List JFile)
    (prov bu ak mn w : Str) (vak vbu : Option Str)
    (hbu : bu ≠ []) (hak : ak ≠ []) (hmn : mn ≠ [])
    (hsplit : useSplit (some w) = true)
    (hfail : ∃ x ∈ mapIdxFrom (fun i f =>
        (ocrStep oracle (jsOrStr vbu bu) (jsOrStr vak ak) w i f).1) 0 files,
      isErrE x = true) :
    ∃ e, callOpenAICompatible oracle files (mkOAIConfig prov bu ak mn (some w) vak vbu)
      = (.error (ocrFailMsg w e),
         files.map (fun f => NetCall.chat (cleanEndpoint (jsOrStr vbu bu))
           (jsOrStr vak ak) (ocrPayload w f))) := by
  unfold mkOAIConfig
  rw [callOAI_eq oracle files prov bu ak mn (some w) vak vbu hbu hak hmn]
  rw [hsplit]
  rw [if_pos rfl]
  rw [show optVal (some w) = w from rfl]
  unfold splitRun
  dsimp only
  rw [ocrSteps_trace, mapIdxFrom_map]
  obtain ⟨e0, hc, hm⟩ := collectOk_err _ hfail
  rcases mem_ocr_results_shape hm with ⟨n, c, habs⟩ | ⟨e, he⟩
  · exact absurd habs (by simp)
  · refine ⟨e, ?_⟩
    rw [hc]
    have he' : e0 = ocrFailMsg w e := by
      simpa using he
    rw [he']

/-- Witness for the amended C2 at the three-image fixture with OCR call
number 2 failing. -/
theorem C2_split_failure_aborts_witness :
    ∃ e, callOpenAICompatible (failOneOracle (sampleFile 2))
        [sampleFile 1, sampleFile 2, sampleFile 3] splitCfg
      = (.error (ocrFailMsg "vm".toList e),
         [sampleFile 1, sampleFile 2, sampleFile 3].map
           (fun f => NetCall.chat
             (cleanEndpoint (jsOrStr none "https://h".toList))
             (jsOrStr none "k".toList) (ocrPayload "vm".toList f))) :=
  C2_split_failure_aborts (failOneOracle (sampleFile 2))
    [sampleFile 1, sampleFile 2, sampleFile 3]
    "openai".toList "https://h".toList "k".toList "m".toList "vm".toList none none
    (by decide) (by decide) (by decide) (by decide) (by decide)

/-! ## Claim C4: risk-ratio range validation -/

/-- Risk metrics object with a cash ratio of 2, outside the unit interval. -/
def badRiskMetrics : Json :=
  .jobj [("stockConcentration".toList, .jnum 0),
         ("entityConcentration".toList, .jnum 0),
         ("cashRatio".toList, .jnum 2),
         ("riskAlerts".toList, .jarr [])]

/-- Member list of a complete, schema-conforming analysis result whose
cash ratio is out of range. -/
def badResultFields : List (Str × Json) :=
  [("id".toList, .jstr "r1".toList),
   ("timestamp".toList, .jnum 1700000000000),
   ("totalNetWorthCNY".toList, .jnum 100),
   ("summary".toList, .jstr "s".toList),
   ("distributionAnalysis".toList, .jstr "d".toList),
   ("investmentAdvice".toList, .jstr "i".toList),
   ("riskMetrics".toList, badRiskMetrics),
   ("breakdown".toList, .jarr [])]

/-- The out-of-range analysis result. -/
def badResult : Json := .jobj badResultFields

/-- Unified-mode configuration fixture. -/
def unifiedCfg : AnalysisConfig :=
  mkOAIConfig "openai".toList "https://h".toList "k".toList "m".toList
    none none none

/-- Transport that always answers with the serialized out-of-range result. -/
def badResultOracle : FetchOracle := fun _ _ _ => .httpOk (some (serJson badResult))

set_option maxRecDepth 4000 in
/-- Claim C4 counterexample: a model response whose cashRatio is 2 — outside
the unit interval yet conforming to the generation schema, which carries no
range constraint — is parsed and returned to the caller unchanged; no
validation failure occurs. -/
theorem C4_counterexample :
    resultSchemaValid badResult = true
    ∧ (callOpenAICompatible badResultOracle [sampleFile 1] unifiedCfg).1
      = .ok badResult
    ∧ getField badResult "riskMetrics".toList = some badRiskMetrics
    ∧ getField badRiskMetrics "cashRatio".toList = some (.jnum 2)
    ∧ ¬((2 : Int) ≤ 1) := by
  refine ⟨by rfl, by rfl, by rfl, by rfl, by decide⟩

/-- Claim C4 (amended): the OpenAI-compatible path performs no range
validation on parsed model output — in Unified sub-mode every successfully
parsed JSON object is returned to the caller exactly as parsed, whatever
the values of its risk ratios (spec design note on the absent
post-parse validation). -/
theorem C4_no_range_validation (oracle : FetchOracle) (files : List JFile)
    (prov bu ak mn : Str) (fs : List (Str × Json))
    (hbu : bu ≠ []) (hak : ak ≠ []) (hmn : mn ≠ [])
    (ho : ∀ p, oracle (cleanEndpoint bu) ak p = .httpOk (some (serJson (.jobj fs)))) :
    callOpenAICompatible oracle files (mkOAIConfig prov bu ak mn none none none)
      = (.ok (.jobj fs),
         [NetCall.chat (cleanEndpoint bu) ak (unifiedPayload mn files)]) := by
  unfold mkOAIConfig
  rw [callOAI_eq oracle files prov bu ak mn none none none hbu hak hmn]
  rw [show useSplit none = false from rfl]
  rw [if_neg (show ¬(false = true) by simp)]
  unfold unifiedRun openAIFetch
  dsimp only
  rw [ho]
  have hne : serJson (.jobj fs) ≠ [] := by
    simp [serJson]
  show (if jsTruthy (some (serJson (.jobj fs))) = true
      then (parseJSONE (jsToString (some (serJson (.jobj fs)))),
            [NetCall.chat (cleanEndpoint bu) ak (unifiedPayload mn files)])
      else ((.error "AI 未返回内容".toList : Except Str Json),
            [NetCall.chat (cleanEndpoint bu) ak (unifiedPayload mn files)]))
    = ((.ok (.jobj fs) : Except Str Json),
       [NetCall.chat (cleanEndpoint bu) ak (unifiedPayload mn files)])
  rw [if_pos (jsTruthy_some_of_ne hne)]
  show (parseJSONE (serJson (.jobj fs)),
      [NetCall.chat (cleanEndpoint bu) ak (unifiedPayload mn files)]) = _
  unfold parseJSONE
  rw [parseJSON_ser_obj]

/-- Witness for the amended C4 at the concrete out-of-range result. -/
theorem C4_no_range_validation_witness :
    callOpenAICompatible badResultOracle [sampleFile 1] unifiedCfg
      = (.ok badResult,
         [NetCall.chat (cleanEndpoint "https://h".toList) "k".toList
           (unifiedPayload "m".toList [sampleFile 1])]) :=
  C4_no_range_validation badResultOracle [sampleFile 1]
    "openai".toList "https://h".toList "k".toList "m".toList badResultFields
    (by decide) (by decide) (by decide) (fun p => rfl)

/-! ## Claim C7: backend failure handling -/

/-- Transport that answers every OCR request (distinguished by its bounded
output length) with success but an absent content field, and the reasoning
request with a well-formed result. -/
def emptyOcrOracle : FetchOracle := fun _ _ p =>
  if p.maxTokens = some 1500 then .httpOk none
  else .httpOk (some (serJson badResult))

set_option maxRecDepth 8000 in
/-- Claim C7 counterexample: in Split sub-mode a success response whose
content field is absent on an OCR call does not fail the invocation — the
strategy keeps going, splices the literal text undefined under the image
header, issues the reasoning call, and the invocation succeeds. -/
theorem C7_counterexample :
    (callOpenAICompatible emptyOcrOracle [sampleFile 1] splitCfg).1 = .ok badResult
    ∧ (callOpenAICompatible emptyOcrOracle [sampleFile 1] splitCfg).2
      = [NetCall.chat (cleanEndpoint "https://h".toList) "k".toList
           (ocrPayload "vm".toList (sampleFile 1)),
         NetCall.chat (cleanEndpoint "https://h".toList) "k".toList
           (reasoningPayload "m".toList 1 (ocrHeader 0 none))]
    ∧ hasSub "undefined".toList (ocrHeader 0 none) = true := by
  refine ⟨by rfl, by rfl, by rfl⟩

/-- Claim C7 (amended): a non-success HTTP status on the Unified call, a
Split OCR call, or the Split reasoning call raises an error carrying the
status code and response body (the OCR one additionally wrapped with the
vision model name); an empty or absent content field fails the invocation
for the Unified call and the Split reasoning call — but an empty or absent
OCR content does not fail the invocation, which proceeds to the reasoning
call. -/
theorem C7_backend_failures (oracle : FetchOracle) (files : List JFile)
    (prov bu ak mn w : Str) (vak vbu : Option Str)
    (hbu : bu ≠ []) (hak : ak ≠ []) (hmn : mn ≠ []) :
    (∀ st body, oracle (cleanEndpoint bu) ak (unifiedPayload mn files) = .httpErr st body →
      (callOpenAICompatible oracle files (mkOAIConfig prov bu ak mn none none none)).1
        = .error (oaiErrMsg st body))
    ∧ (oracle (cleanEndpoint bu) ak (unifiedPayload mn files) = .httpOk none →
      (callOpenAICompatible oracle files (mkOAIConfig prov bu ak mn none none none)).1
        = .error "AI 未返回内容".toList)
    ∧ (∀ st body f rest, useSplit (some w) = true → files = f :: rest →
        oracle (cleanEndpoint (jsOrStr vbu bu)) (jsOrStr vak ak) (ocrPayload w f)
          = .httpErr st body →
      (callOpenAICompatible oracle files (mkOAIConfig prov bu ak mn (some w) vak vbu)).1
        = .error (ocrFailMsg w (oaiErrMsg st body)))
    ∧ (∀ st body, useSplit (some w) = true →
        (∀ f : JFile, ∃ c, oracle (cleanEndpoint (jsOrStr vbu bu)) (jsOrStr vak ak)
          (ocrPayload w f) = .httpOk c) →
        (∀ q : Payload, q.maxTokens = none →
          oracle (cleanEndpoint bu) ak q = .httpErr st body) →
      (callOpenAICompatible oracle files (mkOAIConfig prov bu ak mn (some w) vak vbu)).1
        = .error (oaiErrMsg st body))
    ∧ (useSplit (some w) = true →
        (∀ f : JFile, ∃ c, oracle (cleanEndpoint (jsOrStr vbu bu)) (jsOrStr vak ak)
          (ocrPayload w f) = .httpOk c) →
        (∀ q : Payload, q.maxTokens = none →
          oracle (cleanEndpoint bu) ak q = .httpOk none) →
      (callOpenAICompatible oracle files (mkOAIConfig prov bu ak mn (some w) vak vbu)).1
        = .error "逻辑模型未返回内容".toList)
    ∧ (∀ fs : List (Str × Json), useSplit (some w) = true →
        (∀ f : JFile, oracle (cleanEndpoint (jsOrStr vbu bu)) (jsOrStr vak ak)
          (ocrPayload w f) = .httpOk none) →
        (∀ q : Payload, q.maxTokens = none →
          oracle (cleanEndpoint bu) ak q = .httpOk (some (serJson (.jobj fs)))) →
      (callOpenAICompatible oracle files (mkOAIConfig prov bu ak mn (some w) vak vbu)).1
        = .ok (.jobj fs)) := by
  refine ⟨?_, ?_, ?_, ?_, ?_, ?_⟩
  · intro st body h
    unfold mkOAIConfig
    rw [callOAI_eq oracle files prov bu ak mn none none none hbu hak hmn]
    rw [show useSplit none = false from rfl]
    rw [if_neg (show ¬(false = true) by simp)]
    unfold unifiedRun openAIFetch
    dsimp only
    rw [h]
  · intro h
    unfold mkOAIConfig
    rw [callOAI_eq oracle files prov bu ak mn none none none hbu hak hmn]
    rw [show useSplit none = false from rfl]
    rw [if_neg (show ¬(false = true) by simp)]
    unfold unifiedRun openAIFetch
    dsimp only
    rw [h]
    rfl
  · intro st body f rest hsplit hf h
    subst hf
    unfold mkOAIConfig
    rw [callOAI_eq oracle (f :: rest) prov bu ak mn (some w) vak vbu hbu hak hmn]
    rw [hsplit]
    rw [if_pos rfl]
    rw [show optVal (some w) = w from rfl]
    unfold splitRun
    dsimp only
    rw [show mapIdxFrom (ocrStep oracle (jsOrStr vbu bu) (jsOrStr vak ak) w) 0 (f :: rest)
        = ocrStep oracle (jsOrStr vbu bu) (jsOrStr vak ak) w 0 f
          :: mapIdxFrom (ocrStep oracle (jsOrStr vbu bu) (jsOrStr vak ak) w) 1 rest
        from rfl]
    rw [List.map_cons, ocrStep_fst_err 0 h]
    rfl
  · intro st body hsplit hoc hre
    unfold mkOAIConfig
    rw [callOAI_eq oracle files prov bu ak mn (some w) vak vbu hbu hak hmn]
    rw [hsplit]
    rw [if_pos rfl]
    rw [show optVal (some w) = w from rfl]
    rw [splitRun_all_ok oracle files bu ak mn w vak vbu hoc]
    dsimp only
    unfold openAIFetch
    dsimp only
    rw [hre _ rfl]
  · intro hsplit hoc hre
    unfold mkOAIConfig
    rw [callOAI_eq oracle files prov bu ak mn (some w) vak vbu hbu hak hmn]
    rw [hsplit]
    rw [if_pos rfl]
    rw [show optVal (some w) = w from rfl]
    rw [splitRun_all_ok oracle files bu ak mn w vak vbu hoc]
    dsimp only
    unfold openAIFetch
    dsimp only
    rw [hre _ rfl]
    rfl
  · intro fs hsplit hoc hre
    unfold mkOAIConfig
    rw [callOAI_eq oracle files prov bu ak mn (some w) vak vbu hbu hak hmn]
    rw [hsplit]
    rw [if_pos rfl]
    rw [show optVal (some w) = w from rfl]
    rw [splitRun_all_ok oracle files bu ak mn w vak vbu (fun f => ⟨none, hoc f⟩)]
    dsimp only
    unfold openAIFetch
    dsimp only
    rw [hre _ rfl]
    have hne : serJson (Json.jobj fs) ≠ [] := by
      simp [serJson]
    show (if jsTruthy (some (serJson (Json.jobj fs))) = true
        then (parseJSONE (jsToString (some (serJson (Json.jobj fs)))),
              files.map (fun f => NetCall.chat (cleanEndpoint (jsOrStr vbu bu))
                (jsOrStr vak ak) (ocrPayload w f))
              ++ [NetCall.chat (cleanEndpoint bu) ak
                   (reasoningPayload mn files.length
                     (List.intercalate "\n".toList
                       (mapIdxFrom (fun i f => ocrHeader i
                         (respContent (oracle (cleanEndpoint (jsOrStr vbu bu))
                           (jsOrStr vak ak) (ocrPayload w f)))) 0 files)))])
        else ((.error "逻辑模型未返回内容".toList : Except Str Json),
              files.map (fun f => NetCall.chat (cleanEndpoint (jsOrStr vbu bu))
                (jsOrStr vak ak) (ocrPayload w f))
              ++ [NetCall.chat (cleanEndpoint bu) ak
                   (reasoningPayload mn files.length
                     (List.intercalate "\n".toList
                       (mapIdxFrom (fun i f => ocrHeader i
                         (respContent (oracle (cleanEndpoint (jsOrStr vbu bu))
                           (jsOrStr vak ak) (ocrPayload w f)))) 0 files)))])).1
      = (.ok (.jobj fs) : Except Str Json)
    rw [if_pos (jsTruthy_some_of_ne hne)]
    show parseJSONE (serJson (Json.jobj fs)) = .ok (.jobj fs)
    unfold parseJSONE
    rw [parseJSON_ser_obj]

/-- Transport on which every request fails with HTTP 500. -/
def c7failOracle : FetchOracle := fun _ _ _ => .httpErr 500 "boom".toList

/-- Witness for C7 at a concrete failing transport: the Unified call turns
the status and body into the thrown message, and a Split OCR failure is
additionally wrapped with the vision model name. -/
theorem C7_backend_failures_witness :
    (callOpenAICompatible c7failOracle [sampleFile 1]
       (mkOAIConfig "openai".toList "https://h".toList "k".toList "m".toList
         none none none)).1
      = .error (oaiErrMsg 500 "boom".toList)
    ∧ (callOpenAICompatible c7failOracle [sampleFile 1]
       (mkOAIConfig "openai".toList "https://h".toList "k".toList "m".toList
         (some "vm".toList) none none)).1
      = .error (ocrFailMsg "vm".toList (oaiErrMsg 500 "boom".toList)) := by
  have h := C7_backend_failures c7failOracle [sampleFile 1]
    "openai".toList "https://h".toList "k".toList "m".toList "vm".toList none none
    (by decide) (by decide) (by decide)
  exact ⟨h.1 500 "boom".toList rfl,
         h.2.2.1 500 "boom".toList (sampleFile 1) [] (by decide) rfl rfl⟩

/-! ## Claim C8: serialize, fence-wrap, normalize round trip -/

/-- A schema-conforming riskMetrics object. -/
def goodRiskMetrics : Json := .jobj
  [("stockConcentration".toList, .jnum 55),
   ("entityConcentration".toList, .jnum 40),
   ("cashRatio".toList, .jnum 12),
   ("riskAlerts".toList, .jarr [.jstr "股票集中度偏高".toList])]

/-- A schema-conforming breakdown item with enum-valued type fields. -/
def goodBreakdownItem : Json := .jobj
  [("name".toList, .jstr "招行活期".toList),
   ("entity".toList, .jstr "招商银行".toList),
   ("originalAmount".toList, .jnum 1000),
   ("currency".toList, .jstr "CNY".toList),
   ("convertedAmountCNY".toList, .jnum 1000),
   ("type".toList, .jstr "现金与活期".toList),
   ("macroCategory".toList, .jstr "流动性资产".toList)]

/-- Members of a schema-valid analysis result. -/
def goodResultFields : List (Str × Json) :=
  [("id".toList, .jstr "analysis-1".toList),
   ("timestamp".toList, .jnum 1700000000),
   ("totalNetWorthCNY".toList, .jnum 1000),
   ("summary".toList, .jstr "总体稳健".toList),
   ("distributionAnalysis".toList, .jstr "以现金为主".toList),
   ("investmentAdvice".toList, .jstr "适度增配".toList),
   ("riskMetrics".toList, goodRiskMetrics),
   ("breakdown".toList, .jarr [goodBreakdownItem])]

/-- A schema-valid analysis result value. -/
def goodResult : Json := .jobj goodResultFields

/-- Claim C8: for any schema-valid analysis result, serializing it to JSON,
wrapping the serialization in a fenced json code block, and passing the
wrapped text through the response normalizer parses back to a structurally
identical value. -/
theorem C8_normalize_roundtrip (v : Json) (h : resultSchemaValid v = true) :
    parseJSON (fenceWrap (serJson v)) = some v := by
  cases v with
  | jobj fs => exact parseJSON_fenceWrap_obj fs
  | jnum n => exact Bool.noConfusion h
  | jstr s => exact Bool.noConfusion h
  | jarr xs => exact Bool.noConfusion h

set_option maxRecDepth 8000 in
/-- Witness for C8 at a concrete schema-valid result. -/
theorem C8_normalize_roundtrip_witness :
    resultSchemaValid goodResult = true
    ∧ parseJSON (fenceWrap (serJson goodResult)) = some goodResult :=
  ⟨by rfl, C8_normalize_roundtrip goodResult (by rfl)⟩

/-! ## Claim C9: prose-wrapped extraction -/

/-- Claim C9: for model output made of leading prose, a fenced JSON object
and trailing prose — with the braces of the object being the first opening
and last closing brace of the whole text — the response normalizer slices
out exactly the object span, ignoring the prose and fence markers around
it, and parses that span. -/
theorem C9_prose_extraction (pre j post : Str) (c0 : Char) (t0 : Str)
    (hpreT : pre.dropWhile isWS = c0 :: t0) (hc0 : c0 ≠ '`')
    (hpre1 : '{' ∉ pre) (hpost2 : '}' ∉ post)
    (hpostT : dropRightWS post ≠ [])
    (hj1 : j.head? = some '{') (hj2 : j.getLast? = some '}') :
    cleanJsonText (pre ++ "```json\n".toList ++ j ++ "\n```".toList ++ post) = j
    ∧ parseJSON (pre ++ "```json\n".toList ++ j ++ "\n```".toList ++ post)
      = jsonParse j := by
  have h1 := cleanJsonText_prose pre j post c0 t0 hpreT hc0 hpre1 hpost2 hpostT hj1 hj2
  refine ⟨h1, ?_⟩
  unfold parseJSON
  rw [h1]

/-- Witness for C9 at the specification example. -/
theorem C9_prose_extraction_witness :
    parseJSON ("Here is the result:\n".toList ++ "```json\n".toList
        ++ "\x7b\"a\":1\x7d".toList ++ "\n```".toList ++ "\nThanks!".toList)
      = some (.jobj [("a".toList, .jnum 1)]) := by
  have h := C9_prose_extraction "Here is the result:\n".toList
    "\x7b\"a\":1\x7d".toList "\nThanks!".toList 'H' "ere is the result:\n".toList
    (by rfl) (by decide) (by decide) (by decide) (by decide) (by rfl) (by rfl)
  rw [h.2]
  rfl
